import Mathlib

/-!
# Verification of the transaction-factory implementation
  (`src/bin/node/cli/src/factory_impl.rs`)

A shallow embedding of the transaction factory: the scripted step
sequencer and call builder (`create_extrinsic`), the deterministic
key derivation (`gen_seed_bytes`, `gen_random_account_id`,
`gen_random_account_secret`), and the signing pipeline (`sign`) with
its payload-length-dependent hashing rule and its encode/decode
round-trip check.

Machine integers are modelled as `Nat` with explicit `% 2^w` where the
width matters.  OS randomness (`H256::random()`) is modelled as an
explicit entropy stream (`List Nat`) threaded through the functions
that consume it; a fresh 256-bit value is the head of the stream
reduced mod `2^256`.  Panics (`panic!`, `.expect`) are modelled as
`Except.error`.  External collaborator crates (the SCALE codec, the
`rand` crate's `StdRng`, `blake2_256`, sr25519 signing) are modelled
by concrete executable stand-ins, documented at their definitions.
-/

set_option maxRecDepth 4000

namespace Factory

/-! ## Byte-level codec primitives

Model of the external SCALE codec crate (`codec::{Encode, Decode}`),
which is not part of this repository.  Numbers are encoded as
fixed-width little-endian byte lists; variable-length sequences carry
a 4-byte length prefix.  A byte is a `Nat` (meant `< 256`). -/

/-- Little-endian encoding of `n` into exactly `k` bytes (truncating at `2^(8k)`). -/
def natToLEBytes : Nat → Nat → List Nat
  | 0, _ => []
  | k + 1, n => n % 256 :: natToLEBytes k (n / 256)

/-- Decode exactly `k` little-endian bytes into a number, returning the rest. -/
def decodeLE : Nat → List Nat → Option (Nat × List Nat)
  | 0, bs => some (0, bs)
  | _ + 1, [] => none
  | k + 1, b :: bs => (decodeLE k bs).map (fun p => (b + 256 * p.1, p.2))

/-- Take exactly `k` elements from the front, returning them and the rest. -/
def takeExact : Nat → List Nat → Option (List Nat × List Nat)
  | 0, bs => some ([], bs)
  | _ + 1, [] => none
  | k + 1, b :: bs => (takeExact k bs).map (fun p => (b :: p.1, p.2))

/-! ## Entropy model

`H256::random()` (external, `sp_core`) draws fresh OS randomness; it is
not seeded.  We model the process's entropy source as an explicit list
of naturals: one draw takes the head (default `0` when exhausted),
reduced mod `2^256`, and leaves the tail. -/

/-- One draw of a fresh 256-bit random value from the entropy stream. -/
def h256Random (entropy : List Nat) : Nat × List Nat :=
  (entropy.headD 0 % 2 ^ 256, entropy.tail)

/-- The value of the `i`-th successive draw from entropy stream `e`. -/
def entropyAt (e : List Nat) (i : Nat) : Nat :=
  (e.drop i).headD 0 % 2 ^ 256

/-! ## Data model

Shallow embedding of the types used by `factory_impl.rs`.  An
`AccountId` (32-byte sr25519 public key) and an `H256` hash are `Nat`
(meant `< 2^256`); a `Balance` (u128) is a `Nat` (meant `< 2^128`). -/

/-- `pallet_indices::address::Address`; the factory only ever builds the
`Id` variant. -/
inductive Address where
  | Id (account : Nat)
deriving DecidableEq, Repr

/-- `pallet_staking::RewardDestination`. -/
inductive RewardDestination where
  | Staked
  | Stash
  | Controller
deriving DecidableEq, Repr

/-- `pallet_staking::ValidatorPrefs`; `commission` is a `Perbill`
(parts per billion, a u32). -/
structure ValidatorPrefs where
  commission : Nat
deriving DecidableEq, Repr

/-- `sp_arithmetic::Perbill::from_rational_approximation` (external crate):
`p / q` scaled to parts per billion. -/
def perbillFromRational (p q : Nat) : Nat :=
  p * 1000000000 / q

/-- Runtime `Header`.  Field order follows the argument order of
`HeaderT::new(number, extrinsics_root, state_root, parent_hash, digest)`,
which is how `create_extrinsic` constructs headers.  The digest is an
opaque byte list (`Default::default()` is `[]`). -/
structure Header where
  number : Nat
  extrinsics_root : Nat
  state_root : Nat
  parent_hash : Nat
  digest : List Nat
deriving DecidableEq, Repr

/-- `pallet_balances::Call`, restricted to the variant the factory uses. -/
inductive BalancesCall where
  | transfer (dest : Address) (value : Nat)
deriving DecidableEq, Repr

/-- `pallet_nicks::Call`, restricted to the variants the factory uses. -/
inductive NicksCall where
  | set_name (name : List Nat)
  | clear_name
deriving DecidableEq, Repr

/-- `pallet_authorship::Call`, restricted to the variant the factory uses. -/
inductive AuthorshipCall where
  | set_uncles (new_uncles : List Header)
deriving DecidableEq, Repr

/-- `pallet_staking::Call`, restricted to the variants the factory uses. -/
inductive StakingCall where
  | bond (controller : Address) (value : Nat) (payee : RewardDestination)
  | validate (prefs : ValidatorPrefs)
  | nominate (targets : List Address)
  | bond_extra (max_additional : Nat)
  | unbond (value : Nat)
  | rebond (value : Nat)
  | withdraw_unbonded
deriving DecidableEq, Repr

/-- `node_runtime::Call`: the closed union of dispatchable calls the
factory builds. -/
inductive Call where
  | Balances (c : BalancesCall)
  | Nicks (c : NicksCall)
  | Authorship (c : AuthorshipCall)
  | Staking (c : StakingCall)
deriving DecidableEq, Repr

/-- `sp_runtime::generic::Era`. -/
inductive Era where
  | Immortal
  | Mortal (period : Nat) (phase : Nat)
deriving DecidableEq, Repr

/-- The next power of two not below `n`, capped at `2^16` — the value
`Era::mortal` clamps the period to (the cap also covers the
`checked_next_power_of_two().unwrap_or(1 << 16)` overflow case). -/
def nextPow2Capped (n : Nat) : Nat :=
  2 ^ ((List.range 17).filter (fun k => n ≤ 2 ^ k)).headD 16

/-- `Era::mortal(period, current)` (external `sp_runtime`): clamp the
period to a power of two in `[4, 65536]`, then quantize the phase. -/
def Era.mortal (period current : Nat) : Era :=
  let p0 := nextPow2Capped period
  let p := if p0 < 4 then 4 else p0
  let phase := current % p
  let q0 := p / 4096
  let quantize_factor := if q0 < 1 then 1 else q0
  Era.Mortal p (phase / quantize_factor * quantize_factor)

/-- `node_runtime::SignedExtra`: the 7-tuple of signed-extension values
built by `build_extra`.  `CheckVersion`, `CheckGenesis` and
`CheckWeight` carry no data, nor does the seventh (defaulted) entry;
`CheckEra` carries the era, `CheckNonce` the nonce (u32),
`ChargeTransactionPayment` the tip (u128). -/
structure SignedExtra where
  check_version : Unit
  check_genesis : Unit
  check_era : Era
  check_nonce : Nat
  check_weight : Unit
  transaction_payment : Nat
  seventh : Unit
deriving DecidableEq, Repr

/-- `FactoryState::build_extra(index, phase)`. -/
def build_extra (index : Nat) (phase : Nat) : SignedExtra :=
  ⟨(), (), Era.mortal 256 phase, index, (), 0, ()⟩

/-- `<SignedExtra as SignedExtension>::AdditionalSigned`: the factory
passes `(version, genesis_hash, prior_block_hash, (), (), (), ())`. -/
structure AdditionalSigned where
  version : Nat
  genesis_hash : Nat
  prior_block_hash : Nat
  r4 : Unit
  r5 : Unit
  r6 : Unit
  r7 : Unit
deriving DecidableEq, Repr

/-- Model of an `sr25519::Pair` (external `sp_core`): the 32-byte secret
seed material as a number. -/
structure Pair where
  secret : Nat
deriving DecidableEq, Repr

/-- Model of an sr25519 `Signature`: it records the signer and the exact
message bytes that were signed, so that theorems can speak about which
payload a signature covers. -/
structure Signature where
  signer : Nat
  message : List Nat
deriving DecidableEq, Repr

/-- Model of `sr25519::Pair::from_seed` (external): a keypair determined
by the 32 seed bytes. -/
def Pair.from_seed (bytes : List Nat) : Pair :=
  ⟨bytes.foldl (fun acc b => acc * 256 + b % 256) 0⟩

/-- Model of the sr25519 public key of a pair (external): determined by
the pair. -/
def Pair.public (p : Pair) : Nat :=
  p.secret

/-- Model of `sr25519::Pair::sign` (external): the produced signature
records the message that was signed. -/
def Pair.sign (p : Pair) (msg : List Nat) : Signature :=
  ⟨p.secret, msg⟩

/-- `node_runtime::CheckedExtrinsic`. -/
structure CheckedExtrinsic where
  signed : Option (Nat × SignedExtra)
  function : Call
deriving DecidableEq, Repr

/-- `node_runtime::UncheckedExtrinsic`: the wire-level transaction. -/
structure UncheckedExtrinsic where
  signature : Option (Address × Signature × SignedExtra)
  function : Call
deriving DecidableEq, Repr

/-! ## Encoders (model of `codec::Encode`)

Every type the factory serializes gets a concrete byte encoding:
numbers fixed-width little-endian, enums a tag byte followed by the
payload, sequences a 4-byte length followed by the elements. -/

/-- Length-prefixed byte sequence (`Vec<u8>`). -/
def encodeBytes (bs : List Nat) : List Nat :=
  natToLEBytes 4 bs.length ++ bs

/-- Length-prefixed sequence of encoded elements (`Vec<T>`). -/
def encodeList (enc : α → List Nat) (xs : List α) : List Nat :=
  natToLEBytes 4 xs.length ++ xs.foldr (fun x acc => enc x ++ acc) []

/-- `Option<T>`: absence tag `0`, presence tag `1` then the payload. -/
def encodeOption (enc : α → List Nat) : Option α → List Nat
  | none => [0]
  | some x => 1 :: enc x

def encodeAddress : Address → List Nat
  | .Id a => 255 :: natToLEBytes 32 a

def encodeRewardDestination : RewardDestination → List Nat
  | .Staked => [0]
  | .Stash => [1]
  | .Controller => [2]

def encodeValidatorPrefs (p : ValidatorPrefs) : List Nat :=
  natToLEBytes 4 p.commission

def encodeHeader (h : Header) : List Nat :=
  natToLEBytes 4 h.number ++ natToLEBytes 32 h.extrinsics_root ++
    natToLEBytes 32 h.state_root ++ natToLEBytes 32 h.parent_hash ++
    encodeBytes h.digest

/-- Calls are encoded as a module tag byte, a call tag byte, then the
arguments in order. -/
def encodeCall : Call → List Nat
  | .Balances (.transfer dest value) =>
    0 :: 0 :: (encodeAddress dest ++ natToLEBytes 16 value)
  | .Nicks (.set_name name) => 1 :: 0 :: encodeBytes name
  | .Nicks .clear_name => [1, 1]
  | .Authorship (.set_uncles new_uncles) =>
    2 :: 0 :: encodeList encodeHeader new_uncles
  | .Staking (.bond controller value payee) =>
    3 :: 0 :: (encodeAddress controller ++ natToLEBytes 16 value ++
      encodeRewardDestination payee)
  | .Staking (.validate prefs) => 3 :: 1 :: encodeValidatorPrefs prefs
  | .Staking (.nominate targets) => 3 :: 2 :: encodeList encodeAddress targets
  | .Staking (.bond_extra max_additional) => 3 :: 3 :: natToLEBytes 16 max_additional
  | .Staking (.unbond value) => 3 :: 4 :: natToLEBytes 16 value
  | .Staking (.rebond value) => 3 :: 5 :: natToLEBytes 16 value
  | .Staking .withdraw_unbonded => [3, 6]

def encodeEra : Era → List Nat
  | .Immortal => [0]
  | .Mortal period phase => 1 :: (natToLEBytes 4 period ++ natToLEBytes 4 phase)

/-- The data-free extension slots encode to nothing, as in SCALE. -/
def encodeExtra (e : SignedExtra) : List Nat :=
  encodeEra e.check_era ++ natToLEBytes 4 e.check_nonce ++
    natToLEBytes 16 e.transaction_payment

def encodeAdditional (a : AdditionalSigned) : List Nat :=
  natToLEBytes 4 a.version ++ natToLEBytes 32 a.genesis_hash ++
    natToLEBytes 32 a.prior_block_hash

/-- The signing payload `(function, extra, additional_signed)` is the
concatenation of the componentwise encodings, as for a tuple. -/
def encodePayload (f : Call) (extra : SignedExtra) (add : AdditionalSigned) : List Nat :=
  encodeCall f ++ encodeExtra extra ++ encodeAdditional add

def encodeSignature (s : Signature) : List Nat :=
  natToLEBytes 32 s.signer ++ encodeBytes s.message

def encodeSigTriple (t : Address × Signature × SignedExtra) : List Nat :=
  encodeAddress t.1 ++ encodeSignature t.2.1 ++ encodeExtra t.2.2

def encodeUnchecked (u : UncheckedExtrinsic) : List Nat :=
  encodeOption encodeSigTriple u.signature ++ encodeCall u.function

/-! ## Decoders (model of `codec::Decode`)

Each decoder consumes bytes from the front and returns the decoded
value and the remaining bytes, or `none` on malformed input. -/

def decodeBytes (bs : List Nat) : Option (List Nat × List Nat) :=
  (decodeLE 4 bs).bind fun p => takeExact p.1 p.2

def decodeListWith (dec : List Nat → Option (α × List Nat)) :
    Nat → List Nat → Option (List α × List Nat)
  | 0, bs => some ([], bs)
  | n + 1, bs =>
    (dec bs).bind fun p =>
      (decodeListWith dec n p.2).map fun q => (p.1 :: q.1, q.2)

def decodeList (dec : List Nat → Option (α × List Nat)) (bs : List Nat) :
    Option (List α × List Nat) :=
  (decodeLE 4 bs).bind fun p => decodeListWith dec p.1 p.2

def decodeOption (dec : List Nat → Option (α × List Nat)) :
    List Nat → Option (Option α × List Nat)
  | 0 :: rest => some (none, rest)
  | 1 :: rest => (dec rest).map fun p => (some p.1, p.2)
  | _ => none

def decodeAddress : List Nat → Option (Address × List Nat)
  | 255 :: rest => (decodeLE 32 rest).map fun p => (Address.Id p.1, p.2)
  | _ => none

def decodeRewardDestination : List Nat → Option (RewardDestination × List Nat)
  | 0 :: rest => some (.Staked, rest)
  | 1 :: rest => some (.Stash, rest)
  | 2 :: rest => some (.Controller, rest)
  | _ => none

def decodeValidatorPrefs (bs : List Nat) : Option (ValidatorPrefs × List Nat) :=
  (decodeLE 4 bs).map fun p => (⟨p.1⟩, p.2)

def decodeHeader (bs : List Nat) : Option (Header × List Nat) :=
  (decodeLE 4 bs).bind fun n =>
    (decodeLE 32 n.2).bind fun er =>
      (decodeLE 32 er.2).bind fun sr =>
        (decodeLE 32 sr.2).bind fun ph =>
          (decodeBytes ph.2).map fun d =>
            (⟨n.1, er.1, sr.1, ph.1, d.1⟩, d.2)

/-- Decode the call arguments that follow a `(module, call)` tag pair. -/
def decodeCallBody (m c : Nat) (rest : List Nat) : Option (Call × List Nat) :=
  if m = 0 ∧ c = 0 then
    (decodeAddress rest).bind fun d =>
      (decodeLE 16 d.2).map fun v => (.Balances (.transfer d.1 v.1), v.2)
  else if m = 1 ∧ c = 0 then
    (decodeBytes rest).map fun n => (.Nicks (.set_name n.1), n.2)
  else if m = 1 ∧ c = 1 then some (.Nicks .clear_name, rest)
  else if m = 2 ∧ c = 0 then
    (decodeList decodeHeader rest).map fun u => (.Authorship (.set_uncles u.1), u.2)
  else if m = 3 ∧ c = 0 then
    (decodeAddress rest).bind fun ctl =>
      (decodeLE 16 ctl.2).bind fun v =>
        (decodeRewardDestination v.2).map fun p =>
          (.Staking (.bond ctl.1 v.1 p.1), p.2)
  else if m = 3 ∧ c = 1 then
    (decodeValidatorPrefs rest).map fun p => (.Staking (.validate p.1), p.2)
  else if m = 3 ∧ c = 2 then
    (decodeList decodeAddress rest).map fun t => (.Staking (.nominate t.1), t.2)
  else if m = 3 ∧ c = 3 then
    (decodeLE 16 rest).map fun v => (.Staking (.bond_extra v.1), v.2)
  else if m = 3 ∧ c = 4 then
    (decodeLE 16 rest).map fun v => (.Staking (.unbond v.1), v.2)
  else if m = 3 ∧ c = 5 then
    (decodeLE 16 rest).map fun v => (.Staking (.rebond v.1), v.2)
  else if m = 3 ∧ c = 6 then some (.Staking .withdraw_unbonded, rest)
  else none

def decodeCall : List Nat → Option (Call × List Nat)
  | m :: c :: rest => decodeCallBody m c rest
  | _ => none

def decodeEra : List Nat → Option (Era × List Nat)
  | 0 :: rest => some (.Immortal, rest)
  | 1 :: rest =>
    (decodeLE 4 rest).bind fun p =>
      (decodeLE 4 p.2).map fun q => (.Mortal p.1 q.1, q.2)
  | _ => none

def decodeExtra (bs : List Nat) : Option (SignedExtra × List Nat) :=
  (decodeEra bs).bind fun e =>
    (decodeLE 4 e.2).bind fun n =>
      (decodeLE 16 n.2).map fun t =>
        (⟨(), (), e.1, n.1, (), t.1, ()⟩, t.2)

def decodeSignature (bs : List Nat) : Option (Signature × List Nat) :=
  (decodeLE 32 bs).bind fun s =>
    (decodeBytes s.2).map fun m => (⟨s.1, m.1⟩, m.2)

def decodeSigTriple (bs : List Nat) : Option ((Address × Signature × SignedExtra) × List Nat) :=
  (decodeAddress bs).bind fun a =>
    (decodeSignature a.2).bind fun s =>
      (decodeExtra s.2).map fun e => ((a.1, s.1, e.1), e.2)

def decodeUnchecked (bs : List Nat) : Option (UncheckedExtrinsic × List Nat) :=
  (decodeOption decodeSigTriple bs).bind fun s =>
    (decodeCall s.2).map fun f => (⟨s.1, f.1⟩, f.2)

/-! ## Well-formedness

A value is well formed when every numeric field fits the machine width
it has in the Rust source (u32 / u128 / 256-bit hash) and sequence
lengths fit a u32.  Values built by the factory from in-range inputs
are well formed, and well-formed values round-trip through the codec. -/

def wfAddress : Address → Prop
  | .Id a => a < 2 ^ 256

def wfHeader (h : Header) : Prop :=
  h.number < 2 ^ 32 ∧ h.extrinsics_root < 2 ^ 256 ∧ h.state_root < 2 ^ 256 ∧
    h.parent_hash < 2 ^ 256 ∧ h.digest.length < 2 ^ 32

def wfCall : Call → Prop
  | .Balances (.transfer dest value) => wfAddress dest ∧ value < 2 ^ 128
  | .Nicks (.set_name name) => name.length < 2 ^ 32
  | .Nicks .clear_name => True
  | .Authorship (.set_uncles new_uncles) =>
    new_uncles.length < 2 ^ 32 ∧ ∀ h ∈ new_uncles, wfHeader h
  | .Staking (.bond controller value _) => wfAddress controller ∧ value < 2 ^ 128
  | .Staking (.validate prefs) => prefs.commission < 2 ^ 32
  | .Staking (.nominate targets) =>
    targets.length < 2 ^ 32 ∧ ∀ a ∈ targets, wfAddress a
  | .Staking (.bond_extra max_additional) => max_additional < 2 ^ 128
  | .Staking (.unbond value) => value < 2 ^ 128
  | .Staking (.rebond value) => value < 2 ^ 128
  | .Staking .withdraw_unbonded => True

def wfEra : Era → Prop
  | .Immortal => True
  | .Mortal period phase => period < 2 ^ 32 ∧ phase < 2 ^ 32

def wfExtra (e : SignedExtra) : Prop :=
  wfEra e.check_era ∧ e.check_nonce < 2 ^ 32 ∧ e.transaction_payment < 2 ^ 128

def wfSignature (s : Signature) : Prop :=
  s.signer < 2 ^ 256 ∧ s.message.length < 2 ^ 32

def wfSigTriple (t : Address × Signature × SignedExtra) : Prop :=
  wfAddress t.1 ∧ wfSignature t.2.1 ∧ wfExtra t.2.2

def wfUnchecked (u : UncheckedExtrinsic) : Prop :=
  (∀ t, u.signature = some t → wfSigTriple t) ∧ wfCall u.function

/-! ## The program: signing pipeline -/

/-- Model of `sp_io::hashing::blake2_256` (external): a function from
byte lists to 32-byte digests.  The factory only relies on it being a
deterministic 32-byte digest of its input. -/
def blake2_256 (b : List Nat) : List Nat :=
  natToLEBytes 32
    (b.foldl (fun acc x => (acc * 1099511628211 + x + 1) % 2 ^ 256)
      14695981039346656037)

/-- `sign` (`factory_impl.rs:300-328`): wrap a `CheckedExtrinsic` into a
signed `UncheckedExtrinsic`.  For a signed extrinsic the signing payload
is the encoding of `(function, extra, additional_signed)`; if it is
longer than 256 bytes its blake2-256 hash is signed instead of the raw
bytes.  The result is encoded and decoded back; a decode failure is the
`expect` panic, modelled as `Except.error`. -/
def sign (xt : CheckedExtrinsic) (key : Pair)
    (additional_signed : AdditionalSigned) : Except String UncheckedExtrinsic :=
  let s : UncheckedExtrinsic :=
    match xt.signed with
    | some (signed, extra) =>
      let b := encodePayload xt.function extra additional_signed
      let signature := if b.length > 256 then key.sign (blake2_256 b) else key.sign b
      { signature := some (Address.Id signed, signature, extra),
        function := xt.function }
    | none =>
      { signature := none, function := xt.function }
  let e := encodeUnchecked s
  match decodeUnchecked e with
  | some p => Except.ok p.1
  | none => Except.error "Failed to decode signed unchecked extrinsic"

/-! ## The program: factory state and the call builder -/

/-- `FactoryState<N>` with `N = u32` (the runtime block number type). -/
structure FactoryState where
  tx_name : String
  block_no : Nat
  start_number : Nat
  round : Nat
  block_in_round : Nat
  num : Nat
  index : Nat
deriving DecidableEq, Repr

/-- `RuntimeAdapter::new(tx_name, num)`: `num` is truncated u64 → u32. -/
def FactoryState.new (tx_name : String) (num : Nat) : FactoryState :=
  { tx_name := tx_name, num := num % 2 ^ 32, round := 0, block_in_round := 0,
    block_no := 0, start_number := 0, index := 0 }

/-- `increase_index`: the only operation that advances the nonce
counter (u32 arithmetic). -/
def increase_index (st : FactoryState) : FactoryState :=
  { st with index := (st.index + 1) % 2 ^ 32 }

/-- `ExistentialDeposit::get()`. Modelled from the spec: the
minimum-balance constant is an externally supplied runtime parameter
(its concrete value is outside this source file). -/
def existentialDeposit : Nat := 100000000000000

/-- `minimum_balance()`. -/
def minimum_balance : Nat := existentialDeposit

/-- `extract_index`: the on-chain nonce is never consulted; the
function ignores both arguments and returns 0. -/
def extract_index (_st : FactoryState) (_account_id : Nat) (_block_hash : Nat) : Nat :=
  0

/-- `extract_phase`: the phase is the locally tracked block number; the
block hash argument is ignored. -/
def extract_phase (st : FactoryState) (_block_hash : Nat) : Nat :=
  st.block_no

/-- The name bytes used by the `nicks_set_name` step:
`b"Marcio Oscar Diaz".to_vec()`. -/
def nicksNameBytes : List Nat :=
  "Marcio Oscar Diaz".toList.map Char.toNat

/-- The uncle-synthesis loop of the `authorship_set_uncles` step: `n`
iterations, each drawing two fresh random hashes (extrinsics root then
state root, the argument order of `Header::new`) and using the genesis
hash as the parent hash. -/
def makeUncles (block_no genesis_hash : Nat) :
    Nat → List Nat → List Header × List Nat
  | 0, entropy => ([], entropy)
  | n + 1, entropy =>
    let er := h256Random entropy
    let sr := h256Random er.2
    let header : Header :=
      { number := max 1 block_no, extrinsics_root := er.1, state_root := sr.1,
        parent_hash := genesis_hash, digest := [] }
    let rest := makeUncles block_no genesis_hash n sr.2
    (header :: rest.1, rest.2)

/-- The target list of the `staking_nominate` step: a loop pushing the
destination address 16 times. -/
def nominateTargets (destination : Nat) : List Address :=
  (List.range 16).map fun _ => Address.Id destination

/-- First half of `create_extrinsic` (`factory_impl.rs:153-222`): the
string-dispatched call builder.  Returns the built call, the updated
state (the staking steps overwrite `tx_name` with the next step), and
the remaining entropy; an unknown step name is the `panic!`, modelled
as `Except.error`. -/
def buildFunction (st : FactoryState) (destination : Nat) (amount : Nat)
    (genesis_hash : Nat) (entropy : List Nat) :
    Except String (Call × FactoryState × List Nat) :=
  if st.tx_name = "balances_transfer" then
    .ok (.Balances (.transfer (.Id destination) amount), st, entropy)
  else if st.tx_name = "nicks_set_name" then
    .ok (.Nicks (.set_name nicksNameBytes), st, entropy)
  else if st.tx_name = "nicks_clear_name" then
    .ok (.Nicks .clear_name, st, entropy)
  else if st.tx_name = "authorship_set_uncles" then
    let uncles := makeUncles st.block_no genesis_hash 10 entropy
    .ok (.Authorship (.set_uncles uncles.1), st, uncles.2)
  else if st.tx_name = "staking_bond" then
    .ok (.Staking (.bond (.Id destination) amount .Controller),
      { st with tx_name := "staking_validate" }, entropy)
  else if st.tx_name = "staking_validate" then
    .ok (.Staking (.validate ⟨perbillFromRational 1 10⟩),
      { st with tx_name := "staking_nominate" }, entropy)
  else if st.tx_name = "staking_nominate" then
    .ok (.Staking (.nominate (nominateTargets destination)),
      { st with tx_name := "staking_bond_extra" }, entropy)
  else if st.tx_name = "staking_bond_extra" then
    .ok (.Staking (.bond_extra (minimum_balance * 2)),
      { st with tx_name := "staking_unbond" }, entropy)
  else if st.tx_name = "staking_unbond" then
    .ok (.Staking (.unbond (minimum_balance * 2)),
      { st with tx_name := "staking_rebond" }, entropy)
  else if st.tx_name = "staking_rebond" then
    .ok (.Staking (.rebond minimum_balance),
      { st with tx_name := "staking_withdraw_unbonded" }, entropy)
  else if st.tx_name = "staking_withdraw_unbonded" then
    .ok (.Staking .withdraw_unbonded,
      { st with tx_name := "staking_bond_extra" }, entropy)
  else
    .error ("Extrinsic " ++ st.tx_name ++ " is not supported yet!")

/-- `create_extrinsic` (`factory_impl.rs:139-232`): build the call for
the current step, then sign it with the sender's nonce (`self.index`)
and era phase.  The entropy stream models the OS randomness consumed by
`H256::random()` in the `authorship_set_uncles` branch. -/
def create_extrinsic (st : FactoryState) (sender : Nat) (key : Pair)
    (destination : Nat) (amount : Nat) (version : Nat) (genesis_hash : Nat)
    (prior_block_hash : Nat) (entropy : List Nat) :
    Except String (UncheckedExtrinsic × FactoryState × List Nat) :=
  let phase := extract_phase st prior_block_hash
  match buildFunction st destination amount genesis_hash entropy with
  | .error e => .error e
  | .ok built =>
    match sign
        { signed := some (sender, build_extra st.index phase),
          function := built.1 }
        key
        ⟨version, genesis_hash, prior_block_hash, (), (), (), ()⟩ with
    | .ok u => .ok (u, built.2.1, built.2.2)
    | .error e => .error e

/-! ## The program: key derivation -/

/-- Modelled from the spec: the external `rand` crate's
`StdRng::seed_from_u64` — a deterministic generator state derived only
from the 64-bit seed. -/
def stdRngSeedFromU64 (seed : Nat) : Nat :=
  seed % 2 ^ 64

/-- Modelled from the spec: the external `rand` crate's `Rng::gen::<u8>()`
on `StdRng` — a deterministic step of the generator yielding one byte
and the next state (64-bit arithmetic). -/
def stdRngGenU8 (state : Nat) : Nat × Nat :=
  let s := (state * 6364136223846793005 + 1442695040888963407) % 2 ^ 64
  (s / 2 ^ 56, s)

/-- The byte-filling loop of `gen_seed_bytes`: `n` bytes drawn
successively from the generator. -/
def genBytesLoop : Nat → Nat → List Nat
  | 0, _ => []
  | n + 1, state =>
    let b := stdRngGenU8 state
    b.1 :: genBytesLoop n b.2

/-- `gen_seed_bytes(seed)` (`factory_impl.rs:288-296`): seed a `StdRng`
from the u32 seed and fill a 32-byte buffer. -/
def gen_seed_bytes (seed : Nat) : List Nat :=
  genBytesLoop 32 (stdRngSeedFromU64 (seed % 2 ^ 32))

/-- `gen_random_account_id(seed)`: the account id of the sr25519 pair
derived from `gen_seed_bytes(seed)`. -/
def gen_random_account_id (seed : Nat) : Nat :=
  (Pair.from_seed (gen_seed_bytes seed)).public

/-- `gen_random_account_secret(seed)`: the sr25519 pair derived from
`gen_seed_bytes(seed)`. -/
def gen_random_account_secret (seed : Nat) : Pair :=
  Pair.from_seed (gen_seed_bytes seed)

/-! ## Statement helpers

Projections and abbreviations used by the theorem statements. -/

/-- The signature `sign` produces for a signing payload: over the blake2
hash of the encoded payload when it exceeds 256 bytes, over the raw
bytes otherwise. -/
def payloadSig (key : Pair) (f : Call) (extra : SignedExtra)
    (add : AdditionalSigned) : Signature :=
  if (encodePayload f extra add).length > 256 then
    key.sign (blake2_256 (encodePayload f extra add))
  else
    key.sign (encodePayload f extra add)

/-- Well-formed `CheckedExtrinsic`: account ids fit 256 bits, the extra
and the call are well formed. -/
def wfChecked (xt : CheckedExtrinsic) : Prop :=
  (∀ p, xt.signed = some p → p.1 < 2 ^ 256 ∧ wfExtra p.2) ∧ wfCall xt.function

/-- The call payload of a `create_extrinsic` result. -/
def callOf (r : Except String (UncheckedExtrinsic × FactoryState × List Nat)) :
    Option Call :=
  r.toOption.map fun p => p.1.function

/-- The produced extrinsic of a `create_extrinsic` result. -/
def extrOf (r : Except String (UncheckedExtrinsic × FactoryState × List Nat)) :
    Option UncheckedExtrinsic :=
  r.toOption.map fun p => p.1

/-- The step name of the state a `create_extrinsic` result leaves behind. -/
def stepNameOf (r : Except String (UncheckedExtrinsic × FactoryState × List Nat)) :
    Option String :=
  r.toOption.map fun p => p.2.1.tx_name

/-- The uncle headers inside a `create_extrinsic` result (empty unless the
built call is `set_uncles`). -/
def unclesOf (r : Except String (UncheckedExtrinsic × FactoryState × List Nat)) :
    List Header :=
  match callOf r with
  | some (.Authorship (.set_uncles u)) => u
  | _ => []

/-- Placeholder header for indexed access. -/
def headerDefault : Header :=
  { number := 0, extrinsics_root := 0, state_root := 0, parent_hash := 0,
    digest := [] }

/-- The eleven step names `create_extrinsic` recognizes. -/
def validStepNames : List String :=
  ["balances_transfer", "nicks_set_name", "nicks_clear_name",
   "authorship_set_uncles", "staking_bond", "staking_validate",
   "staking_nominate", "staking_bond_extra", "staking_unbond",
   "staking_rebond", "staking_withdraw_unbonded"]

/-! ## Round-trip lemmas: `decode (encode x ++ rest) = some (x, rest)` -/

theorem natToLEBytes_length (k n : Nat) : (natToLEBytes k n).length = k := by
  induction k generalizing n with
  | zero => rfl
  | succ k ih => simp [natToLEBytes, ih]

theorem decodeLE_natToLEBytes (k : Nat) :
    ∀ (n : Nat), n < 256 ^ k → ∀ (rest : List Nat),
      decodeLE k (natToLEBytes k n ++ rest) = some (n, rest) := by
  induction k with
  | zero =>
    intro n hn rest
    interval_cases n
    rfl
  | succ k ih =>
    intro n hn rest
    have hdiv : n / 256 < 256 ^ k := by
      rw [Nat.div_lt_iff_lt_mul (by norm_num)]
      calc n < 256 ^ (k + 1) := hn
        _ = 256 ^ k * 256 := by ring
    show (decodeLE k (natToLEBytes k (n / 256) ++ rest)).map
        (fun p => (n % 256 + 256 * p.1, p.2)) = some (n, rest)
    rw [ih (n / 256) hdiv rest]
    exact congrArg (fun m => some (m, rest)) (Nat.mod_add_div n 256)

theorem takeExact_append (bs : List Nat) :
    ∀ (rest : List Nat), takeExact bs.length (bs ++ rest) = some (bs, rest) := by
  induction bs with
  | nil => intro rest; rfl
  | cons b bs ih => intro rest; simp [takeExact, ih rest]

theorem h256Random_eq (e : List Nat) :
    h256Random e = (entropyAt e 0, e.tail) := by
  simp [h256Random, entropyAt]

theorem decodeLE_enc4 {n : Nat} (h : n < 2 ^ 32) (rest : List Nat) :
    decodeLE 4 (natToLEBytes 4 n ++ rest) = some (n, rest) :=
  decodeLE_natToLEBytes 4 n (by norm_num at h ⊢; omega) rest

theorem decodeLE_enc16 {n : Nat} (h : n < 2 ^ 128) (rest : List Nat) :
    decodeLE 16 (natToLEBytes 16 n ++ rest) = some (n, rest) :=
  decodeLE_natToLEBytes 16 n (by norm_num at h ⊢; omega) rest

theorem decodeLE_enc32 {n : Nat} (h : n < 2 ^ 256) (rest : List Nat) :
    decodeLE 32 (natToLEBytes 32 n ++ rest) = some (n, rest) :=
  decodeLE_natToLEBytes 32 n (by norm_num at h ⊢; omega) rest

theorem decodeBytes_enc {bs : List Nat} (h : bs.length < 2 ^ 32) (rest : List Nat) :
    decodeBytes (encodeBytes bs ++ rest) = some (bs, rest) := by
  simp [decodeBytes, encodeBytes, List.append_assoc, decodeLE_enc4 h,
    takeExact_append]

theorem decodeAddress_enc {a : Address} (h : wfAddress a) (rest : List Nat) :
    decodeAddress (encodeAddress a ++ rest) = some (a, rest) := by
  cases a with
  | Id acct =>
    simp only [wfAddress] at h
    simp [encodeAddress, decodeAddress, decodeLE_enc32 h]

theorem decodeRewardDestination_enc (d : RewardDestination) (rest : List Nat) :
    decodeRewardDestination (encodeRewardDestination d ++ rest) = some (d, rest) := by
  cases d <;> rfl

theorem decodeValidatorPrefs_enc {p : ValidatorPrefs} (h : p.commission < 2 ^ 32)
    (rest : List Nat) :
    decodeValidatorPrefs (encodeValidatorPrefs p ++ rest) = some (p, rest) := by
  simp [decodeValidatorPrefs, encodeValidatorPrefs, decodeLE_enc4 h]

theorem decodeHeader_enc {h : Header} (hw : wfHeader h) (rest : List Nat) :
    decodeHeader (encodeHeader h ++ rest) = some (h, rest) := by
  obtain ⟨h1, h2, h3, h4, h5⟩ := hw
  simp [decodeHeader, encodeHeader, List.append_assoc, decodeLE_enc4 h1,
    decodeLE_enc32 h2, decodeLE_enc32 h3, decodeLE_enc32 h4, decodeBytes_enc h5]

theorem decodeListWith_enc {α : Type} {dec : List Nat → Option (α × List Nat)}
    {enc : α → List Nat} :
    ∀ (xs : List α),
      (∀ x ∈ xs, ∀ r, dec (enc x ++ r) = some (x, r)) →
      ∀ (rest : List Nat),
        decodeListWith dec xs.length (xs.foldr (fun x acc => enc x ++ acc) [] ++ rest) =
          some (xs, rest) := by
  intro xs
  induction xs with
  | nil => intro _ rest; rfl
  | cons x xs ih =>
    intro hall rest
    have hx := hall x (List.mem_cons_self x xs)
    have hxs := ih (fun y hy r => hall y (List.mem_cons_of_mem x hy) r) rest
    simp only [List.length_cons, List.foldr_cons, decodeListWith, List.append_assoc,
      hx, Option.bind_some]
    simp [hxs]

theorem decodeList_enc {α : Type} {dec : List Nat → Option (α × List Nat)}
    {enc : α → List Nat} {xs : List α}
    (hall : ∀ x ∈ xs, ∀ r, dec (enc x ++ r) = some (x, r))
    (hlen : xs.length < 2 ^ 32) (rest : List Nat) :
    decodeList dec (encodeList enc xs ++ rest) = some (xs, rest) := by
  simp [decodeList, encodeList, List.append_assoc, decodeLE_enc4 hlen,
    decodeListWith_enc xs hall rest]

theorem decodeCall_enc {c : Call} (hw : wfCall c) (rest : List Nat) :
    decodeCall (encodeCall c ++ rest) = some (c, rest) := by
  cases c with
  | Balances b =>
    cases b with
    | transfer dest value =>
      obtain ⟨hd, hv⟩ := hw
      simp [encodeCall, decodeCall, decodeCallBody, List.append_assoc,
        decodeAddress_enc hd, decodeLE_enc16 hv]
  | Nicks n =>
    cases n with
    | set_name name =>
      simp only [wfCall] at hw
      simp [encodeCall, decodeCall, decodeCallBody, decodeBytes_enc hw]
    | clear_name =>
      simp [encodeCall, decodeCall, decodeCallBody]
  | Authorship a =>
    cases a with
    | set_uncles uncles =>
      obtain ⟨hlen, hall⟩ := hw
      simp [encodeCall, decodeCall, decodeCallBody,
        decodeList_enc (fun h hh r => decodeHeader_enc (hall h hh) r) hlen rest]
  | Staking s =>
    cases s with
    | bond controller value payee =>
      obtain ⟨hc, hv⟩ := hw
      simp [encodeCall, decodeCall, decodeCallBody, List.append_assoc,
        decodeAddress_enc hc, decodeLE_enc16 hv, decodeRewardDestination_enc]
    | validate prefs =>
      simp only [wfCall] at hw
      simp [encodeCall, decodeCall, decodeCallBody, decodeValidatorPrefs_enc hw]
    | nominate targets =>
      obtain ⟨hlen, hall⟩ := hw
      simp [encodeCall, decodeCall, decodeCallBody,
        decodeList_enc (fun a ha r => decodeAddress_enc (hall a ha) r) hlen rest]
    | bond_extra v =>
      simp only [wfCall] at hw
      simp [encodeCall, decodeCall, decodeCallBody, decodeLE_enc16 hw]
    | unbond v =>
      simp only [wfCall] at hw
      simp [encodeCall, decodeCall, decodeCallBody, decodeLE_enc16 hw]
    | rebond v =>
      simp only [wfCall] at hw
      simp [encodeCall, decodeCall, decodeCallBody, decodeLE_enc16 hw]
    | withdraw_unbonded =>
      simp [encodeCall, decodeCall, decodeCallBody]

theorem decodeEra_enc {e : Era} (hw : wfEra e) (rest : List Nat) :
    decodeEra (encodeEra e ++ rest) = some (e, rest) := by
  cases e with
  | Immortal => rfl
  | Mortal period phase =>
    obtain ⟨hp, hph⟩ := hw
    simp [encodeEra, decodeEra, List.append_assoc, decodeLE_enc4 hp,
      decodeLE_enc4 hph]

theorem decodeExtra_enc {e : SignedExtra} (hw : wfExtra e) (rest : List Nat) :
    decodeExtra (encodeExtra e ++ rest) = some (e, rest) := by
  obtain ⟨he, hn, ht⟩ := hw
  simp [decodeExtra, encodeExtra, List.append_assoc, decodeEra_enc he,
    decodeLE_enc4 hn, decodeLE_enc16 ht]

theorem decodeSignature_enc {s : Signature} (hw : wfSignature s) (rest : List Nat) :
    decodeSignature (encodeSignature s ++ rest) = some (s, rest) := by
  obtain ⟨hs, hm⟩ := hw
  simp [decodeSignature, encodeSignature, List.append_assoc, decodeLE_enc32 hs,
    decodeBytes_enc hm]

theorem decodeSigTriple_enc {t : Address × Signature × SignedExtra}
    (hw : wfSigTriple t) (rest : List Nat) :
    decodeSigTriple (encodeSigTriple t ++ rest) = some (t, rest) := by
  obtain ⟨ha, hs, he⟩ := hw
  simp [decodeSigTriple, encodeSigTriple, List.append_assoc, decodeAddress_enc ha,
    decodeSignature_enc hs, decodeExtra_enc he]

theorem decodeUnchecked_enc {u : UncheckedExtrinsic} (hw : wfUnchecked u)
    (rest : List Nat) :
    decodeUnchecked (encodeUnchecked u ++ rest) = some (u, rest) := by
  obtain ⟨hsig, hfn⟩ := hw
  cases u with
  | mk sig fn =>
    cases sig with
    | none =>
      simp [decodeUnchecked, encodeUnchecked, encodeOption, decodeOption,
        decodeCall_enc hfn]
    | some t =>
      have ht := hsig t rfl
      simp [decodeUnchecked, encodeUnchecked, encodeOption, decodeOption,
        List.append_assoc, decodeSigTriple_enc ht, decodeCall_enc hfn]

/-! ## Lemmas about the program functions -/

theorem era_mortal_256 (current : Nat) :
    Era.mortal 256 current = Era.Mortal 256 (current % 256) := by
  have hp : nextPow2Capped 256 = 256 := by decide
  simp [Era.mortal, hp]

theorem wfExtra_build_extra {index : Nat} (h : index < 2 ^ 32) (phase : Nat) :
    wfExtra (build_extra index phase) := by
  have he : wfEra (Era.mortal 256 phase) := by
    rw [era_mortal_256]
    exact ⟨by norm_num, by omega⟩
  exact ⟨he, h, (by norm_num : (0:Nat) < 2 ^ 128)⟩

theorem blake2_256_length (b : List Nat) : (blake2_256 b).length = 32 :=
  natToLEBytes_length 32 _

theorem wfSignature_payloadSig {key : Pair} (hk : key.secret < 2 ^ 256)
    (f : Call) (extra : SignedExtra) (add : AdditionalSigned) :
    wfSignature (payloadSig key f extra add) := by
  rw [payloadSig]
  split
  · exact ⟨hk, by rw [Pair.sign, blake2_256_length]; norm_num⟩
  · next hle =>
    push_neg at hle
    exact ⟨hk, lt_of_le_of_lt hle (by norm_num)⟩

/-- On a signed `CheckedExtrinsic` with well-formed components, `sign`
succeeds and returns the expected wire transaction. -/
theorem sign_signed_eq {signed : Nat} {extra : SignedExtra} {f : Call}
    {key : Pair} {add : AdditionalSigned}
    (hs : signed < 2 ^ 256) (he : wfExtra extra) (hf : wfCall f)
    (hk : key.secret < 2 ^ 256) :
    sign ⟨some (signed, extra), f⟩ key add =
      .ok ⟨some (Address.Id signed, payloadSig key f extra add, extra), f⟩ := by
  have hwf : wfUnchecked
      ⟨some (Address.Id signed, payloadSig key f extra add, extra), f⟩ := by
    refine ⟨?_, hf⟩
    rintro t ht
    injection ht with ht
    subst ht
    exact ⟨hs, wfSignature_payloadSig hk f extra add, he⟩
  have hdec := decodeUnchecked_enc hwf []
  rw [List.append_nil] at hdec
  simp only [payloadSig] at hdec
  simp only [sign]
  rw [hdec]
  rfl

/-- On an unsigned `CheckedExtrinsic` with a well-formed call, `sign`
passes the function through with no signature section. -/
theorem sign_unsigned_eq {f : Call} {key : Pair} {add : AdditionalSigned}
    (hf : wfCall f) :
    sign ⟨none, f⟩ key add = .ok ⟨none, f⟩ := by
  have hwf : wfUnchecked ⟨none, f⟩ :=
    ⟨fun t ht => Option.noConfusion ht, hf⟩
  have hdec := decodeUnchecked_enc hwf []
  rw [List.append_nil] at hdec
  simp only [sign]
  rw [hdec]

/-- When the builder produced a call, `create_extrinsic` signs it with
the sender's current nonce and the block-number phase. -/
theorem create_eq_of_build {st : FactoryState} {destination amount genesis_hash : Nat}
    {entropy : List Nat} {f : Call} {st2 : FactoryState} {e2 : List Nat}
    (hb : buildFunction st destination amount genesis_hash entropy = .ok (f, st2, e2))
    {sender : Nat} {key : Pair} (version prior_block_hash : Nat)
    (hs : sender < 2 ^ 256) (hk : key.secret < 2 ^ 256)
    (hi : st.index < 2 ^ 32) (hf : wfCall f) :
    create_extrinsic st sender key destination amount version genesis_hash
        prior_block_hash entropy =
      .ok (⟨some (Address.Id sender,
              payloadSig key f (build_extra st.index st.block_no)
                ⟨version, genesis_hash, prior_block_hash, (), (), (), ()⟩,
              build_extra st.index st.block_no), f⟩, st2, e2) := by
  simp only [create_extrinsic, extract_phase, hb]
  rw [sign_signed_eq hs (wfExtra_build_extra hi st.block_no) hf hk]

/-- A successful `create_extrinsic` comes from a successful builder run
on the same state, and returns the builder's updated state and leftover
entropy. -/
theorem create_ok_inv {st : FactoryState} {sender destination amount : Nat}
    {key : Pair} {version genesis_hash prior_block_hash : Nat}
    {entropy : List Nat} {u : UncheckedExtrinsic} {st2 : FactoryState}
    {e2 : List Nat}
    (h : create_extrinsic st sender key destination amount version genesis_hash
        prior_block_hash entropy = .ok (u, st2, e2)) :
    ∃ f, buildFunction st destination amount genesis_hash entropy =
      .ok (f, st2, e2) := by
  rw [create_extrinsic] at h
  cases hb : buildFunction st destination amount genesis_hash entropy with
  | error e =>
    simp only [hb] at h
    exact Except.noConfusion h
  | ok built =>
    simp only [hb] at h
    cases hsg : sign ⟨some (sender, build_extra st.index
        (extract_phase st prior_block_hash)), built.1⟩ key
        ⟨version, genesis_hash, prior_block_hash, (), (), (), ()⟩ with
    | error e =>
      simp only [hsg] at h
      exact Except.noConfusion h
    | ok u0 =>
      simp only [hsg, Except.ok.injEq, Prod.mk.injEq] at h
      obtain ⟨-, h2, h3⟩ := h
      exact ⟨built.1, by rw [← h2, ← h3]⟩

theorem makeUncles_length (block_no genesis_hash : Nat) :
    ∀ (n : Nat) (e : List Nat),
      (makeUncles block_no genesis_hash n e).1.length = n := by
  intro n
  induction n with
  | zero => intro e; rfl
  | succ n ih => intro e; simp [makeUncles, ih]

theorem makeUncles_mem (block_no genesis_hash : Nat) :
    ∀ (n : Nat) (e : List Nat),
      ∀ h ∈ (makeUncles block_no genesis_hash n e).1,
        h.number = max 1 block_no ∧ h.parent_hash = genesis_hash ∧
          h.extrinsics_root < 2 ^ 256 ∧ h.state_root < 2 ^ 256 ∧ h.digest = [] := by
  intro n
  induction n with
  | zero => intro e h hmem; cases hmem
  | succ n ih =>
    intro e h hmem
    rw [makeUncles] at hmem
    rcases List.mem_cons.mp hmem with heq | htail
    · subst heq
      exact ⟨rfl, rfl, Nat.mod_lt _ (by positivity), Nat.mod_lt _ (by positivity), rfl⟩
    · exact ih _ h htail

theorem entropyAt_tail (e : List Nat) (i : Nat) :
    entropyAt e.tail i = entropyAt e (i + 1) := by
  cases e <;> simp [entropyAt]

theorem makeUncles_getD (block_no genesis_hash : Nat) :
    ∀ (n : Nat) (e : List Nat) (i : Nat), i < n →
      (makeUncles block_no genesis_hash n e).1.getD i headerDefault =
        { number := max 1 block_no, extrinsics_root := entropyAt e (2 * i),
          state_root := entropyAt e (2 * i + 1), parent_hash := genesis_hash,
          digest := [] } := by
  intro n
  induction n with
  | zero => intro e i hi; exact absurd hi (by omega)
  | succ n ih =>
    intro e i hi
    rw [makeUncles]
    cases i with
    | zero =>
      simp [List.getD, h256Random, entropyAt]
    | succ i =>
      have hrec := ih e.tail.tail i (by omega)
      have h1 : entropyAt e.tail.tail (2 * i) = entropyAt e (2 * (i + 1)) := by
        rw [entropyAt_tail, entropyAt_tail]
        ring_nf
      have h2 : entropyAt e.tail.tail (2 * i + 1) = entropyAt e (2 * (i + 1) + 1) := by
        rw [entropyAt_tail, entropyAt_tail]
        ring_nf
      simpa [List.getD, h256Random, h1, h2] using hrec

theorem nominateTargets_eq (destination : Nat) :
    nominateTargets destination = List.replicate 16 (Address.Id destination) := by
  rfl

theorem genBytesLoop_length : ∀ (n state : Nat), (genBytesLoop n state).length = n := by
  intro n
  induction n with
  | zero => intro state; rfl
  | succ n ih => intro state; simp [genBytesLoop, ih]

/-! ## The builder on each recognized step name -/

theorem buildFunction_transfer {st : FactoryState} (h : st.tx_name = "balances_transfer")
    (destination amount genesis_hash : Nat) (entropy : List Nat) :
    buildFunction st destination amount genesis_hash entropy =
      .ok (.Balances (.transfer (.Id destination) amount), st, entropy) := by
  simp [buildFunction, h]

theorem buildFunction_set_name {st : FactoryState} (h : st.tx_name = "nicks_set_name")
    (destination amount genesis_hash : Nat) (entropy : List Nat) :
    buildFunction st destination amount genesis_hash entropy =
      .ok (.Nicks (.set_name nicksNameBytes), st, entropy) := by
  simp [buildFunction, h]

theorem buildFunction_clear_name {st : FactoryState} (h : st.tx_name = "nicks_clear_name")
    (destination amount genesis_hash : Nat) (entropy : List Nat) :
    buildFunction st destination amount genesis_hash entropy =
      .ok (.Nicks .clear_name, st, entropy) := by
  simp [buildFunction, h]

theorem buildFunction_set_uncles {st : FactoryState}
    (h : st.tx_name = "authorship_set_uncles")
    (destination amount genesis_hash : Nat) (entropy : List Nat) :
    buildFunction st destination amount genesis_hash entropy =
      .ok (.Authorship (.set_uncles (makeUncles st.block_no genesis_hash 10 entropy).1),
        st, (makeUncles st.block_no genesis_hash 10 entropy).2) := by
  simp [buildFunction, h]

theorem buildFunction_bond {st : FactoryState} (h : st.tx_name = "staking_bond")
    (destination amount genesis_hash : Nat) (entropy : List Nat) :
    buildFunction st destination amount genesis_hash entropy =
      .ok (.Staking (.bond (.Id destination) amount .Controller),
        { st with tx_name := "staking_validate" }, entropy) := by
  simp [buildFunction, h]

theorem buildFunction_validate {st : FactoryState} (h : st.tx_name = "staking_validate")
    (destination amount genesis_hash : Nat) (entropy : List Nat) :
    buildFunction st destination amount genesis_hash entropy =
      .ok (.Staking (.validate ⟨perbillFromRational 1 10⟩),
        { st with tx_name := "staking_nominate" }, entropy) := by
  simp [buildFunction, h]

theorem buildFunction_nominate {st : FactoryState} (h : st.tx_name = "staking_nominate")
    (destination amount genesis_hash : Nat) (entropy : List Nat) :
    buildFunction st destination amount genesis_hash entropy =
      .ok (.Staking (.nominate (nominateTargets destination)),
        { st with tx_name := "staking_bond_extra" }, entropy) := by
  simp [buildFunction, h]

theorem buildFunction_bond_extra {st : FactoryState} (h : st.tx_name = "staking_bond_extra")
    (destination amount genesis_hash : Nat) (entropy : List Nat) :
    buildFunction st destination amount genesis_hash entropy =
      .ok (.Staking (.bond_extra (minimum_balance * 2)),
        { st with tx_name := "staking_unbond" }, entropy) := by
  simp [buildFunction, h]

theorem buildFunction_unbond {st : FactoryState} (h : st.tx_name = "staking_unbond")
    (destination amount genesis_hash : Nat) (entropy : List Nat) :
    buildFunction st destination amount genesis_hash entropy =
      .ok (.Staking (.unbond (minimum_balance * 2)),
        { st with tx_name := "staking_rebond" }, entropy) := by
  simp [buildFunction, h]

theorem buildFunction_rebond {st : FactoryState} (h : st.tx_name = "staking_rebond")
    (destination amount genesis_hash : Nat) (entropy : List Nat) :
    buildFunction st destination amount genesis_hash entropy =
      .ok (.Staking (.rebond minimum_balance),
        { st with tx_name := "staking_withdraw_unbonded" }, entropy) := by
  simp [buildFunction, h]

theorem buildFunction_withdraw {st : FactoryState}
    (h : st.tx_name = "staking_withdraw_unbonded")
    (destination amount genesis_hash : Nat) (entropy : List Nat) :
    buildFunction st destination amount genesis_hash entropy =
      .ok (.Staking .withdraw_unbonded,
        { st with tx_name := "staking_bond_extra" }, entropy) := by
  simp [buildFunction, h]

theorem buildFunction_unknown {st : FactoryState}
    (h1 : st.tx_name ≠ "balances_transfer") (h2 : st.tx_name ≠ "nicks_set_name")
    (h3 : st.tx_name ≠ "nicks_clear_name") (h4 : st.tx_name ≠ "authorship_set_uncles")
    (h5 : st.tx_name ≠ "staking_bond") (h6 : st.tx_name ≠ "staking_validate")
    (h7 : st.tx_name ≠ "staking_nominate") (h8 : st.tx_name ≠ "staking_bond_extra")
    (h9 : st.tx_name ≠ "staking_unbond") (h10 : st.tx_name ≠ "staking_rebond")
    (h11 : st.tx_name ≠ "staking_withdraw_unbonded")
    (destination amount genesis_hash : Nat) (entropy : List Nat) :
    buildFunction st destination amount genesis_hash entropy =
      .error ("Extrinsic " ++ st.tx_name ++ " is not supported yet!") := by
  rw [buildFunction]
  rw [if_neg h1, if_neg h2, if_neg h3, if_neg h4, if_neg h5, if_neg h6, if_neg h7,
    if_neg h8, if_neg h9, if_neg h10, if_neg h11]

/-! ## Entropy (ir)relevance glue for the builder and `create_extrinsic` -/

/-- Outside the `authorship_set_uncles` step the builder never consumes
entropy: call and updated state agree for any two entropy streams. -/
theorem buildFunction_entropy_free {st : FactoryState}
    (h : st.tx_name ≠ "authorship_set_uncles")
    (destination amount genesis_hash : Nat) (e1 e2 : List Nat) :
    ((buildFunction st destination amount genesis_hash e1).map fun t => (t.1, t.2.1)) =
      ((buildFunction st destination amount genesis_hash e2).map fun t => (t.1, t.2.1)) := by
  by_cases h1 : st.tx_name = "balances_transfer"
  · rw [buildFunction_transfer h1 destination amount genesis_hash e1,
      buildFunction_transfer h1 destination amount genesis_hash e2]
    rfl
  by_cases h2 : st.tx_name = "nicks_set_name"
  · rw [buildFunction_set_name h2 destination amount genesis_hash e1,
      buildFunction_set_name h2 destination amount genesis_hash e2]
    rfl
  by_cases h3 : st.tx_name = "nicks_clear_name"
  · rw [buildFunction_clear_name h3 destination amount genesis_hash e1,
      buildFunction_clear_name h3 destination amount genesis_hash e2]
    rfl
  by_cases h5 : st.tx_name = "staking_bond"
  · rw [buildFunction_bond h5 destination amount genesis_hash e1,
      buildFunction_bond h5 destination amount genesis_hash e2]
    rfl
  by_cases h6 : st.tx_name = "staking_validate"
  · rw [buildFunction_validate h6 destination amount genesis_hash e1,
      buildFunction_validate h6 destination amount genesis_hash e2]
    rfl
  by_cases h7 : st.tx_name = "staking_nominate"
  · rw [buildFunction_nominate h7 destination amount genesis_hash e1,
      buildFunction_nominate h7 destination amount genesis_hash e2]
    rfl
  by_cases h8 : st.tx_name = "staking_bond_extra"
  · rw [buildFunction_bond_extra h8 destination amount genesis_hash e1,
      buildFunction_bond_extra h8 destination amount genesis_hash e2]
    rfl
  by_cases h9 : st.tx_name = "staking_unbond"
  · rw [buildFunction_unbond h9 destination amount genesis_hash e1,
      buildFunction_unbond h9 destination amount genesis_hash e2]
    rfl
  by_cases h10 : st.tx_name = "staking_rebond"
  · rw [buildFunction_rebond h10 destination amount genesis_hash e1,
      buildFunction_rebond h10 destination amount genesis_hash e2]
    rfl
  by_cases h11 : st.tx_name = "staking_withdraw_unbonded"
  · rw [buildFunction_withdraw h11 destination amount genesis_hash e1,
      buildFunction_withdraw h11 destination amount genesis_hash e2]
    rfl
  rw [buildFunction_unknown h1 h2 h3 h h5 h6 h7 h8 h9 h10 h11
      destination amount genesis_hash e1,
    buildFunction_unknown h1 h2 h3 h h5 h6 h7 h8 h9 h10 h11
      destination amount genesis_hash e2]

/-- The builder's updated state never depends on the entropy stream. -/
theorem buildFunction_state_entropy_free (st : FactoryState)
    (destination amount genesis_hash : Nat) (e1 e2 : List Nat) :
    ((buildFunction st destination amount genesis_hash e1).map fun t => t.2.1) =
      ((buildFunction st destination amount genesis_hash e2).map fun t => t.2.1) := by
  by_cases h4 : st.tx_name = "authorship_set_uncles"
  · rw [buildFunction_set_uncles h4 destination amount genesis_hash e1,
      buildFunction_set_uncles h4 destination amount genesis_hash e2]
    rfl
  · have h := buildFunction_entropy_free h4 destination amount genesis_hash e1 e2
    cases hb1 : buildFunction st destination amount genesis_hash e1 with
    | error a =>
      cases hb2 : buildFunction st destination amount genesis_hash e2 with
      | error b =>
        rw [hb1, hb2] at h
        simp only [Except.map, Except.error.injEq] at h
        simp [Except.map, h]
      | ok t2 => rw [hb1, hb2] at h; exact Except.noConfusion h
    | ok t1 =>
      cases hb2 : buildFunction st destination amount genesis_hash e2 with
      | error b => rw [hb1, hb2] at h; exact Except.noConfusion h
      | ok t2 =>
        rw [hb1, hb2] at h
        simp only [Except.map, Except.ok.injEq, Prod.mk.injEq] at h
        simp [Except.map, h.2]

theorem create_callOf_eq {st : FactoryState} {sender : Nat} {key : Pair}
    {destination amount version genesis_hash prior_block_hash : Nat}
    {e1 e2 : List Nat}
    (h : ((buildFunction st destination amount genesis_hash e1).map fun t => (t.1, t.2.1)) =
      ((buildFunction st destination amount genesis_hash e2).map fun t => (t.1, t.2.1))) :
    callOf (create_extrinsic st sender key destination amount version genesis_hash
        prior_block_hash e1) =
      callOf (create_extrinsic st sender key destination amount version genesis_hash
        prior_block_hash e2) := by
  rw [create_extrinsic, create_extrinsic]
  cases hb1 : buildFunction st destination amount genesis_hash e1 with
  | error a =>
    cases hb2 : buildFunction st destination amount genesis_hash e2 with
    | error b => rfl
    | ok t2 => rw [hb1, hb2] at h; exact Except.noConfusion h
  | ok t1 =>
    cases hb2 : buildFunction st destination amount genesis_hash e2 with
    | error b => rw [hb1, hb2] at h; exact Except.noConfusion h
    | ok t2 =>
      rw [hb1, hb2] at h
      simp only [Except.map, Except.ok.injEq, Prod.mk.injEq] at h
      simp only [h.1]
      cases sign ⟨some (sender, build_extra st.index
          (extract_phase st prior_block_hash)), t2.1⟩ key
          ⟨version, genesis_hash, prior_block_hash, (), (), (), ()⟩ with
      | error e => rfl
      | ok u => rfl

theorem create_stepNameOf_eq {st : FactoryState} {sender : Nat} {key : Pair}
    {destination amount version genesis_hash prior_block_hash : Nat}
    {e1 e2 : List Nat}
    (h : ((buildFunction st destination amount genesis_hash e1).map fun t => (t.1, t.2.1)) =
      ((buildFunction st destination amount genesis_hash e2).map fun t => (t.1, t.2.1))) :
    stepNameOf (create_extrinsic st sender key destination amount version genesis_hash
        prior_block_hash e1) =
      stepNameOf (create_extrinsic st sender key destination amount version genesis_hash
        prior_block_hash e2) := by
  rw [create_extrinsic, create_extrinsic]
  cases hb1 : buildFunction st destination amount genesis_hash e1 with
  | error a =>
    cases hb2 : buildFunction st destination amount genesis_hash e2 with
    | error b => rfl
    | ok t2 => rw [hb1, hb2] at h; exact Except.noConfusion h
  | ok t1 =>
    cases hb2 : buildFunction st destination amount genesis_hash e2 with
    | error b => rw [hb1, hb2] at h; exact Except.noConfusion h
    | ok t2 =>
      rw [hb1, hb2] at h
      simp only [Except.map, Except.ok.injEq, Prod.mk.injEq] at h
      simp only [h.1]
      cases sign ⟨some (sender, build_extra st.index
          (extract_phase st prior_block_hash)), t2.1⟩ key
          ⟨version, genesis_hash, prior_block_hash, (), (), (), ()⟩ with
      | error e => rfl
      | ok u =>
        simp only [stepNameOf, h.2]
        rfl

theorem stepNameOf_ok (u : UncheckedExtrinsic) (st2 : FactoryState) (e2 : List Nat) :
    stepNameOf (.ok (u, st2, e2)) = some st2.tx_name :=
  rfl

theorem callOf_ok (u : UncheckedExtrinsic) (st2 : FactoryState) (e2 : List Nat) :
    callOf (.ok (u, st2, e2)) = some u.function :=
  rfl

/-- When the builder fails, `create_extrinsic` propagates the error. -/
theorem create_error_of_build {st : FactoryState} {destination amount genesis_hash : Nat}
    {entropy : List Nat} {msg : String}
    (hb : buildFunction st destination amount genesis_hash entropy = .error msg)
    (sender : Nat) (key : Pair) (version prior_block_hash : Nat) :
    create_extrinsic st sender key destination amount version genesis_hash
      prior_block_hash entropy = .error msg := by
  simp only [create_extrinsic, hb]

/-- The builder never changes any state field other than `tx_name`. -/
theorem buildFunction_frame {st : FactoryState} {destination amount genesis_hash : Nat}
    {entropy : List Nat} {f : Call} {st2 : FactoryState} {e2 : List Nat}
    (hb : buildFunction st destination amount genesis_hash entropy = .ok (f, st2, e2)) :
    st2.block_no = st.block_no ∧ st2.start_number = st.start_number ∧
      st2.round = st.round ∧ st2.block_in_round = st.block_in_round ∧
      st2.num = st.num ∧ st2.index = st.index := by
  by_cases h1 : st.tx_name = "balances_transfer"
  · rw [buildFunction_transfer h1 destination amount genesis_hash entropy] at hb
    simp only [Except.ok.injEq, Prod.mk.injEq] at hb
    rw [← hb.2.1]
    exact ⟨rfl, rfl, rfl, rfl, rfl, rfl⟩
  by_cases h2 : st.tx_name = "nicks_set_name"
  · rw [buildFunction_set_name h2 destination amount genesis_hash entropy] at hb
    simp only [Except.ok.injEq, Prod.mk.injEq] at hb
    rw [← hb.2.1]
    exact ⟨rfl, rfl, rfl, rfl, rfl, rfl⟩
  by_cases h3 : st.tx_name = "nicks_clear_name"
  · rw [buildFunction_clear_name h3 destination amount genesis_hash entropy] at hb
    simp only [Except.ok.injEq, Prod.mk.injEq] at hb
    rw [← hb.2.1]
    exact ⟨rfl, rfl, rfl, rfl, rfl, rfl⟩
  by_cases h4 : st.tx_name = "authorship_set_uncles"
  · rw [buildFunction_set_uncles h4 destination amount genesis_hash entropy] at hb
    simp only [Except.ok.injEq, Prod.mk.injEq] at hb
    rw [← hb.2.1]
    exact ⟨rfl, rfl, rfl, rfl, rfl, rfl⟩
  by_cases h5 : st.tx_name = "staking_bond"
  · rw [buildFunction_bond h5 destination amount genesis_hash entropy] at hb
    simp only [Except.ok.injEq, Prod.mk.injEq] at hb
    rw [← hb.2.1]
    exact ⟨rfl, rfl, rfl, rfl, rfl, rfl⟩
  by_cases h6 : st.tx_name = "staking_validate"
  · rw [buildFunction_validate h6 destination amount genesis_hash entropy] at hb
    simp only [Except.ok.injEq, Prod.mk.injEq] at hb
    rw [← hb.2.1]
    exact ⟨rfl, rfl, rfl, rfl, rfl, rfl⟩
  by_cases h7 : st.tx_name = "staking_nominate"
  · rw [buildFunction_nominate h7 destination amount genesis_hash entropy] at hb
    simp only [Except.ok.injEq, Prod.mk.injEq] at hb
    rw [← hb.2.1]
    exact ⟨rfl, rfl, rfl, rfl, rfl, rfl⟩
  by_cases h8 : st.tx_name = "staking_bond_extra"
  · rw [buildFunction_bond_extra h8 destination amount genesis_hash entropy] at hb
    simp only [Except.ok.injEq, Prod.mk.injEq] at hb
    rw [← hb.2.1]
    exact ⟨rfl, rfl, rfl, rfl, rfl, rfl⟩
  by_cases h9 : st.tx_name = "staking_unbond"
  · rw [buildFunction_unbond h9 destination amount genesis_hash entropy] at hb
    simp only [Except.ok.injEq, Prod.mk.injEq] at hb
    rw [← hb.2.1]
    exact ⟨rfl, rfl, rfl, rfl, rfl, rfl⟩
  by_cases h10 : st.tx_name = "staking_rebond"
  · rw [buildFunction_rebond h10 destination amount genesis_hash entropy] at hb
    simp only [Except.ok.injEq, Prod.mk.injEq] at hb
    rw [← hb.2.1]
    exact ⟨rfl, rfl, rfl, rfl, rfl, rfl⟩
  by_cases h11 : st.tx_name = "staking_withdraw_unbonded"
  · rw [buildFunction_withdraw h11 destination amount genesis_hash entropy] at hb
    simp only [Except.ok.injEq, Prod.mk.injEq] at hb
    rw [← hb.2.1]
    exact ⟨rfl, rfl, rfl, rfl, rfl, rfl⟩
  · rw [buildFunction_unknown h1 h2 h3 h4 h5 h6 h7 h8 h9 h10 h11
      destination amount genesis_hash entropy] at hb
    exact Except.noConfusion hb

/-! ## Well-formedness of the calls the factory builds -/

theorem wfCall_transfer {destination amount : Nat} (hd : destination < 2 ^ 256)
    (ha : amount < 2 ^ 128) :
    wfCall (.Balances (.transfer (.Id destination) amount)) :=
  ⟨hd, ha⟩

theorem wfCall_set_name : wfCall (.Nicks (.set_name nicksNameBytes)) :=
  (by decide : nicksNameBytes.length < 2 ^ 32)

theorem wfCall_clear_name : wfCall (.Nicks .clear_name) :=
  trivial

theorem wfCall_set_uncles {block_no genesis_hash : Nat} (hbn : block_no < 2 ^ 32)
    (hg : genesis_hash < 2 ^ 256) (entropy : List Nat) :
    wfCall (.Authorship (.set_uncles (makeUncles block_no genesis_hash 10 entropy).1)) := by
  refine ⟨?_, ?_⟩
  · rw [makeUncles_length]
    norm_num
  · intro hd hmem
    obtain ⟨h1, h2, h3, h4, h5⟩ := makeUncles_mem block_no genesis_hash 10 entropy hd hmem
    refine ⟨?_, h3, h4, ?_, ?_⟩
    · rw [h1]
      omega
    · rw [h2]
      exact hg
    · rw [h5]
      norm_num

theorem wfCall_bond {destination amount : Nat} (hd : destination < 2 ^ 256)
    (ha : amount < 2 ^ 128) :
    wfCall (.Staking (.bond (.Id destination) amount .Controller)) :=
  ⟨hd, ha⟩

theorem wfCall_validate : wfCall (.Staking (.validate ⟨perbillFromRational 1 10⟩)) :=
  (by decide : perbillFromRational 1 10 < 2 ^ 32)

theorem wfCall_nominate {destination : Nat} (hd : destination < 2 ^ 256) :
    wfCall (.Staking (.nominate (nominateTargets destination))) := by
  rw [nominateTargets_eq]
  refine ⟨by simp, ?_⟩
  intro a ha
  rw [List.eq_of_mem_replicate ha]
  exact hd

theorem wfCall_bond_extra : wfCall (.Staking (.bond_extra (minimum_balance * 2))) :=
  (by decide : minimum_balance * 2 < 2 ^ 128)

theorem wfCall_unbond : wfCall (.Staking (.unbond (minimum_balance * 2))) :=
  (by decide : minimum_balance * 2 < 2 ^ 128)

theorem wfCall_rebond : wfCall (.Staking (.rebond minimum_balance)) :=
  (by decide : minimum_balance < 2 ^ 128)

theorem wfCall_withdraw : wfCall (.Staking .withdraw_unbonded) :=
  trivial

/-! ## The claims -/

/-- C7: for every step name outside the closed set
{balances_transfer, nicks_set_name, nicks_clear_name,
authorship_set_uncles, staking_bond, staking_validate, staking_nominate,
staking_bond_extra, staking_unbond, staking_rebond,
staking_withdraw_unbonded}, `create_extrinsic` raises an immediate fatal
error whose diagnostic names the offending step string, and never
returns an empty or default call. -/
theorem spec_c7 (st : FactoryState) (sender : Nat) (key : Pair)
    (destination amount version genesis_hash prior_block_hash : Nat)
    (entropy : List Nat) (h : st.tx_name ∉ validStepNames) :
    create_extrinsic st sender key destination amount version genesis_hash
      prior_block_hash entropy =
      .error ("Extrinsic " ++ st.tx_name ++ " is not supported yet!") := by
  simp only [validStepNames, List.mem_cons, List.not_mem_nil, or_false, not_or] at h
  obtain ⟨h1, h2, h3, h4, h5, h6, h7, h8, h9, h10, h11⟩ := h
  exact create_error_of_build (buildFunction_unknown h1 h2 h3 h4 h5 h6 h7 h8 h9 h10 h11
    destination amount genesis_hash entropy) sender key version prior_block_hash

/-- C7 witness: the unrecognized step name `made_up_step` produces the
fatal diagnostic naming it. -/
theorem spec_c7_witness :
    create_extrinsic ⟨"made_up_step", 0, 0, 0, 0, 0, 0⟩ 7 ⟨5⟩ 9 100 1 11 12 [] =
      .error "Extrinsic made_up_step is not supported yet!" :=
  spec_c7 ⟨"made_up_step", 0, 0, 0, 0, 0, 0⟩ 7 ⟨5⟩ 9 100 1 11 12 [] (by decide)

/-- C8: account derivation is deterministic in the seed: equal seeds give
equal account ids and equal keypairs, and the seed material is exactly
32 bytes produced by a generator seeded only from the seed. -/
theorem spec_c8 (s1 s2 : Nat) (h : s1 = s2) :
    gen_random_account_id s1 = gen_random_account_id s2 ∧
      gen_random_account_secret s1 = gen_random_account_secret s2 ∧
      (gen_seed_bytes s1).length = 32 := by
  subst h
  exact ⟨rfl, rfl, genBytesLoop_length 32 _⟩

/-- C8 witness: instantiated at seed 5. -/
theorem spec_c8_witness :
    gen_random_account_id 5 = gen_random_account_id 5 ∧
      gen_random_account_secret 5 = gen_random_account_secret 5 ∧
      (gen_seed_bytes 5).length = 32 :=
  spec_c8 5 5 rfl

/-- C9: a `create_extrinsic` call changes no `FactoryState` field other
than `tx_name`: `block_no`, `start_number`, `round`, `block_in_round`,
`num` and the nonce `index` are all unchanged; the nonce advances only
through the separate `increase_index` operation. -/
theorem spec_c9 (st : FactoryState) (sender : Nat) (key : Pair)
    (destination amount version genesis_hash prior_block_hash : Nat)
    (entropy : List Nat) (u : UncheckedExtrinsic) (st2 : FactoryState)
    (e2 : List Nat)
    (h : create_extrinsic st sender key destination amount version genesis_hash
      prior_block_hash entropy = .ok (u, st2, e2)) :
    st2.block_no = st.block_no ∧ st2.start_number = st.start_number ∧
      st2.round = st.round ∧ st2.block_in_round = st.block_in_round ∧
      st2.num = st.num ∧ st2.index = st.index ∧
      (increase_index st).index = (st.index + 1) % 2 ^ 32 := by
  obtain ⟨f, hb⟩ := create_ok_inv h
  obtain ⟨a, b, c, d, e, g⟩ := buildFunction_frame hb
  exact ⟨a, b, c, d, e, g, rfl⟩

/-- C9 witness: instantiated on a concrete `staking_bond` call. -/
theorem spec_c9_witness :
    ∃ u st2 e2,
      create_extrinsic ⟨"staking_bond", 1, 2, 3, 4, 6, 0⟩ 7 ⟨5⟩ 9 100 1 11 12 [] =
        .ok (u, st2, e2) ∧ st2.block_no = 1 ∧ st2.index = 0 := by
  have hc := create_eq_of_build
    (buildFunction_bond
      (show (⟨"staking_bond", 1, 2, 3, 4, 6, 0⟩ : FactoryState).tx_name =
        "staking_bond" from rfl) 9 100 11 [])
    1 12 (show (7:Nat) < 2 ^ 256 by norm_num)
    (show (⟨5⟩ : Pair).secret < 2 ^ 256 by norm_num) (by norm_num)
    (wfCall_bond (by norm_num) (by norm_num))
  have h9 := spec_c9 _ _ _ _ _ _ _ _ _ _ _ _ hc
  exact ⟨_, _, _, hc, h9.1, h9.2.2.2.2.2.1⟩

/-- C10: `extract_index` returns 0 for every account id and block hash —
the on-chain nonce is never consulted — and the nonce in the signing
extra of every extrinsic `create_extrinsic` produces is exactly the
internally maintained `index` counter. -/
theorem spec_c10 :
    (∀ (st : FactoryState) (account_id block_hash : Nat),
        extract_index st account_id block_hash = 0) ∧
    (∀ (st : FactoryState) (sender : Nat) (key : Pair)
        (destination amount version genesis_hash prior_block_hash : Nat)
        (entropy : List Nat) (f : Call) (st2 : FactoryState) (e2 : List Nat),
      buildFunction st destination amount genesis_hash entropy = .ok (f, st2, e2) →
      sender < 2 ^ 256 → key.secret < 2 ^ 256 → st.index < 2 ^ 32 → wfCall f →
      ∃ sig, create_extrinsic st sender key destination amount version genesis_hash
          prior_block_hash entropy =
        .ok (⟨some (Address.Id sender, sig, build_extra st.index st.block_no), f⟩,
          st2, e2) ∧
        (build_extra st.index st.block_no).check_nonce = st.index) := by
  refine ⟨fun st a b => rfl, ?_⟩
  intro st sender key destination amount version genesis_hash prior_block_hash
    entropy f st2 e2 hb hs hk hi hf
  exact ⟨_, create_eq_of_build hb version prior_block_hash hs hk hi hf, rfl⟩

/-- C10 witness: instantiated on a concrete `nicks_clear_name` call. -/
theorem spec_c10_witness :
    extract_index ⟨"x", 0, 0, 0, 0, 0, 0⟩ 3 4 = 0 ∧
    ∃ sig,
      create_extrinsic ⟨"nicks_clear_name", 1, 2, 3, 4, 6, 0⟩ 7 ⟨5⟩ 9 100 1 11 12 [] =
        .ok (⟨some (Address.Id 7, sig, build_extra 0 1), .Nicks .clear_name⟩,
          ⟨"nicks_clear_name", 1, 2, 3, 4, 6, 0⟩, []) ∧
      (build_extra 0 1).check_nonce = 0 := by
  refine ⟨spec_c10.1 ⟨"x", 0, 0, 0, 0, 0, 0⟩ 3 4, ?_⟩
  exact spec_c10.2 ⟨"nicks_clear_name", 1, 2, 3, 4, 6, 0⟩ 7 ⟨5⟩ 9 100 1 11 12 []
    (.Nicks .clear_name) ⟨"nicks_clear_name", 1, 2, 3, 4, 6, 0⟩ []
    (buildFunction_clear_name
      (show (⟨"nicks_clear_name", 1, 2, 3, 4, 6, 0⟩ : FactoryState).tx_name =
        "nicks_clear_name" from rfl) 9 100 11 [])
    (by norm_num) (by norm_num) (by norm_num) wfCall_clear_name

/-- C1: the step transition of `create_extrinsic` follows the fixed
table: each staking step rewrites `tx_name` to the next step of the
cycle `bond → validate → nominate → bond_extra → unbond → rebond →
withdraw_unbonded → bond_extra`, so seven successive calls starting at
`staking_bond` visit the listed names in order; every non-staking step
(`balances_transfer`, `nicks_set_name`, `nicks_clear_name`,
`authorship_set_uncles`) leaves the step name unchanged. -/
theorem spec_c1 (st : FactoryState) (sender : Nat) (key : Pair)
    (destination amount version genesis_hash prior_block_hash : Nat)
    (entropy : List Nat) (u : UncheckedExtrinsic) (st2 : FactoryState)
    (e2 : List Nat)
    (h : create_extrinsic st sender key destination amount version genesis_hash
      prior_block_hash entropy = .ok (u, st2, e2)) :
    (st.tx_name = "staking_bond" → st2.tx_name = "staking_validate") ∧
    (st.tx_name = "staking_validate" → st2.tx_name = "staking_nominate") ∧
    (st.tx_name = "staking_nominate" → st2.tx_name = "staking_bond_extra") ∧
    (st.tx_name = "staking_bond_extra" → st2.tx_name = "staking_unbond") ∧
    (st.tx_name = "staking_unbond" → st2.tx_name = "staking_rebond") ∧
    (st.tx_name = "staking_rebond" → st2.tx_name = "staking_withdraw_unbonded") ∧
    (st.tx_name = "staking_withdraw_unbonded" → st2.tx_name = "staking_bond_extra") ∧
    (st.tx_name = "balances_transfer" → st2.tx_name = st.tx_name) ∧
    (st.tx_name = "nicks_set_name" → st2.tx_name = st.tx_name) ∧
    (st.tx_name = "nicks_clear_name" → st2.tx_name = st.tx_name) ∧
    (st.tx_name = "authorship_set_uncles" → st2.tx_name = st.tx_name) := by
  obtain ⟨f, hb⟩ := create_ok_inv h
  refine ⟨fun hn => ?_, fun hn => ?_, fun hn => ?_, fun hn => ?_, fun hn => ?_,
    fun hn => ?_, fun hn => ?_, fun hn => ?_, fun hn => ?_, fun hn => ?_,
    fun hn => ?_⟩
  · rw [buildFunction_bond hn destination amount genesis_hash entropy] at hb
    simp only [Except.ok.injEq, Prod.mk.injEq] at hb
    rw [← hb.2.1]
  · rw [buildFunction_validate hn destination amount genesis_hash entropy] at hb
    simp only [Except.ok.injEq, Prod.mk.injEq] at hb
    rw [← hb.2.1]
  · rw [buildFunction_nominate hn destination amount genesis_hash entropy] at hb
    simp only [Except.ok.injEq, Prod.mk.injEq] at hb
    rw [← hb.2.1]
  · rw [buildFunction_bond_extra hn destination amount genesis_hash entropy] at hb
    simp only [Except.ok.injEq, Prod.mk.injEq] at hb
    rw [← hb.2.1]
  · rw [buildFunction_unbond hn destination amount genesis_hash entropy] at hb
    simp only [Except.ok.injEq, Prod.mk.injEq] at hb
    rw [← hb.2.1]
  · rw [buildFunction_rebond hn destination amount genesis_hash entropy] at hb
    simp only [Except.ok.injEq, Prod.mk.injEq] at hb
    rw [← hb.2.1]
  · rw [buildFunction_withdraw hn destination amount genesis_hash entropy] at hb
    simp only [Except.ok.injEq, Prod.mk.injEq] at hb
    rw [← hb.2.1]
  · rw [buildFunction_transfer hn destination amount genesis_hash entropy] at hb
    simp only [Except.ok.injEq, Prod.mk.injEq] at hb
    rw [← hb.2.1]
  · rw [buildFunction_set_name hn destination amount genesis_hash entropy] at hb
    simp only [Except.ok.injEq, Prod.mk.injEq] at hb
    rw [← hb.2.1]
  · rw [buildFunction_clear_name hn destination amount genesis_hash entropy] at hb
    simp only [Except.ok.injEq, Prod.mk.injEq] at hb
    rw [← hb.2.1]
  · rw [buildFunction_set_uncles hn destination amount genesis_hash entropy] at hb
    simp only [Except.ok.injEq, Prod.mk.injEq] at hb
    rw [← hb.2.1]

/-- C1 witness: a concrete call in step `staking_bond` leaves the step
name at `staking_validate`. -/
theorem spec_c1_witness :
    ∃ u st2 e2,
      create_extrinsic ⟨"staking_bond", 1, 2, 3, 4, 6, 0⟩ 7 ⟨5⟩ 9 100 1 11 12 [] =
        .ok (u, st2, e2) ∧ st2.tx_name = "staking_validate" := by
  have hc := create_eq_of_build
    (buildFunction_bond
      (show (⟨"staking_bond", 1, 2, 3, 4, 6, 0⟩ : FactoryState).tx_name =
        "staking_bond" from rfl) 9 100 11 [])
    1 12 (show (7:Nat) < 2 ^ 256 by norm_num)
    (show (⟨5⟩ : Pair).secret < 2 ^ 256 by norm_num) (by norm_num)
    (wfCall_bond (by norm_num) (by norm_num))
  exact ⟨_, _, _, hc, (spec_c1 _ _ _ _ _ _ _ _ _ _ _ _ hc).1 rfl⟩

/-- C6: in step `staking_nominate`, for every destination account the
built call is a `Nominate` whose target list has exactly 16 entries,
every one of them the supplied destination account. -/
theorem spec_c6 (st : FactoryState) (sender : Nat) (key : Pair)
    (destination amount version genesis_hash prior_block_hash : Nat)
    (entropy : List Nat)
    (hn : st.tx_name = "staking_nominate")
    (hd : destination < 2 ^ 256) (hs : sender < 2 ^ 256)
    (hk : key.secret < 2 ^ 256) (hi : st.index < 2 ^ 32) :
    ∃ u, create_extrinsic st sender key destination amount version genesis_hash
        prior_block_hash entropy =
      .ok (u, { st with tx_name := "staking_bond_extra" }, entropy) ∧
      ∃ targets, u.function = .Staking (.nominate targets) ∧
        targets.length = 16 ∧ ∀ t ∈ targets, t = Address.Id destination := by
  refine ⟨_, create_eq_of_build
    (buildFunction_nominate hn destination amount genesis_hash entropy)
    version prior_block_hash hs hk hi (wfCall_nominate hd), ?_⟩
  refine ⟨nominateTargets destination, rfl, ?_, ?_⟩
  · rw [nominateTargets_eq]
    simp
  · intro t ht
    rw [nominateTargets_eq] at ht
    exact List.eq_of_mem_replicate ht

/-- C6 witness: instantiated on a concrete `staking_nominate` call. -/
theorem spec_c6_witness :
    ∃ u, create_extrinsic ⟨"staking_nominate", 1, 2, 3, 4, 6, 0⟩ 7 ⟨5⟩ 9 100 1 11 12 [] =
      .ok (u, ⟨"staking_bond_extra", 1, 2, 3, 4, 6, 0⟩, []) ∧
      ∃ targets, u.function = .Staking (.nominate targets) ∧
        targets.length = 16 ∧ ∀ t ∈ targets, t = Address.Id 9 :=
  spec_c6 ⟨"staking_nominate", 1, 2, 3, 4, 6, 0⟩ 7 ⟨5⟩ 9 100 1 11 12 [] rfl
    (by norm_num) (by norm_num) (by norm_num) (by norm_num)

/-- C2: for every signed `CheckedExtrinsic`, when the canonical
serialization of `(function, extra, additional_signed)` is longer than
256 bytes the signature is produced over its 256-bit blake2 hash, and
when it is at most 256 bytes (including exactly 256) the signature is
produced over the raw bytes. -/
theorem spec_c2 (signed : Nat) (extra : SignedExtra) (f : Call) (key : Pair)
    (add : AdditionalSigned) (u : UncheckedExtrinsic)
    (hs : signed < 2 ^ 256) (he : wfExtra extra) (hf : wfCall f)
    (hk : key.secret < 2 ^ 256)
    (h : sign ⟨some (signed, extra), f⟩ key add = .ok u) :
    ((encodePayload f extra add).length > 256 →
      u.signature = some (Address.Id signed,
        key.sign (blake2_256 (encodePayload f extra add)), extra)) ∧
    ((encodePayload f extra add).length ≤ 256 →
      u.signature = some (Address.Id signed,
        key.sign (encodePayload f extra add), extra)) := by
  rw [sign_signed_eq hs he hf hk] at h
  injection h with h
  subst h
  constructor
  · intro hgt
    simp only [payloadSig, if_pos hgt]
  · intro hle
    simp only [payloadSig,
      if_neg (by omega : ¬ (encodePayload f extra add).length > 256)]

/-- C2 witness: at the boundary, a 256-byte payload is signed raw and a
257-byte payload is signed as its blake2 hash. -/
theorem spec_c2_witness :
    (encodePayload (.Nicks (.set_name (List.replicate 153 7))) (build_extra 0 0)
      ⟨1, 11, 12, (), (), (), ()⟩).length = 256 ∧
    (encodePayload (.Nicks (.set_name (List.replicate 154 7))) (build_extra 0 0)
      ⟨1, 11, 12, (), (), (), ()⟩).length = 257 ∧
    (∃ u, sign ⟨some (7, build_extra 0 0), .Nicks (.set_name (List.replicate 153 7))⟩
        ⟨5⟩ ⟨1, 11, 12, (), (), (), ()⟩ = .ok u ∧
      u.signature = some (Address.Id 7,
        Pair.sign ⟨5⟩ (encodePayload (.Nicks (.set_name (List.replicate 153 7)))
          (build_extra 0 0) ⟨1, 11, 12, (), (), (), ()⟩), build_extra 0 0)) ∧
    (∃ v, sign ⟨some (7, build_extra 0 0), .Nicks (.set_name (List.replicate 154 7))⟩
        ⟨5⟩ ⟨1, 11, 12, (), (), (), ()⟩ = .ok v ∧
      v.signature = some (Address.Id 7,
        Pair.sign ⟨5⟩ (blake2_256 (encodePayload (.Nicks (.set_name (List.replicate 154 7)))
          (build_extra 0 0) ⟨1, 11, 12, (), (), (), ()⟩)), build_extra 0 0)) := by
  have hsign1 : sign ⟨some (7, build_extra 0 0), .Nicks (.set_name (List.replicate 153 7))⟩
      ⟨5⟩ ⟨1, 11, 12, (), (), (), ()⟩ =
      .ok ⟨some (Address.Id 7,
        payloadSig ⟨5⟩ (.Nicks (.set_name (List.replicate 153 7))) (build_extra 0 0)
          ⟨1, 11, 12, (), (), (), ()⟩, build_extra 0 0),
        .Nicks (.set_name (List.replicate 153 7))⟩ :=
    sign_signed_eq (by norm_num) (wfExtra_build_extra (by norm_num) 0)
      (by decide : (List.replicate 153 7).length < 2 ^ 32) (by norm_num)
  have hsign2 : sign ⟨some (7, build_extra 0 0), .Nicks (.set_name (List.replicate 154 7))⟩
      ⟨5⟩ ⟨1, 11, 12, (), (), (), ()⟩ =
      .ok ⟨some (Address.Id 7,
        payloadSig ⟨5⟩ (.Nicks (.set_name (List.replicate 154 7))) (build_extra 0 0)
          ⟨1, 11, 12, (), (), (), ()⟩, build_extra 0 0),
        .Nicks (.set_name (List.replicate 154 7))⟩ :=
    sign_signed_eq (by norm_num) (wfExtra_build_extra (by norm_num) 0)
      (by decide : (List.replicate 154 7).length < 2 ^ 32) (by norm_num)
  have h1 := spec_c2 7 (build_extra 0 0) (.Nicks (.set_name (List.replicate 153 7)))
    ⟨5⟩ ⟨1, 11, 12, (), (), (), ()⟩ _ (by norm_num)
    (wfExtra_build_extra (by norm_num) 0)
    (by decide : (List.replicate 153 7).length < 2 ^ 32) (by norm_num) hsign1
  have h2 := spec_c2 7 (build_extra 0 0) (.Nicks (.set_name (List.replicate 154 7)))
    ⟨5⟩ ⟨1, 11, 12, (), (), (), ()⟩ _ (by norm_num)
    (wfExtra_build_extra (by norm_num) 0)
    (by decide : (List.replicate 154 7).length < 2 ^ 32) (by norm_num) hsign2
  exact ⟨by decide, by decide,
    ⟨_, hsign1, h1.2 (by decide)⟩, ⟨_, hsign2, h2.1 (by decide)⟩⟩

/-- C3: on every well-formed input (signed or unsigned) the signing
function succeeds and the produced `UncheckedExtrinsic` survives the
encode/decode round trip it performs byte-identically; a decode failure
would be the fatal `expect` error, never silently tolerated. -/
theorem spec_c3 (xt : CheckedExtrinsic) (key : Pair) (add : AdditionalSigned)
    (hwf : wfChecked xt) (hk : key.secret < 2 ^ 256) :
    ∃ u, sign xt key add = .ok u ∧
      decodeUnchecked (encodeUnchecked u) = some (u, []) := by
  obtain ⟨hsig, hf⟩ := hwf
  cases xt with
  | mk s function =>
    cases s with
    | none =>
      refine ⟨⟨none, function⟩, sign_unsigned_eq hf, ?_⟩
      have hdec := decodeUnchecked_enc
        (show wfUnchecked ⟨none, function⟩ from
          ⟨fun t ht => Option.noConfusion ht, hf⟩) []
      rwa [List.append_nil] at hdec
    | some p =>
      obtain ⟨hp1, hp2⟩ := hsig p rfl
      refine ⟨⟨some (Address.Id p.1, payloadSig key function p.2 add, p.2), function⟩,
        sign_signed_eq hp1 hp2 hf hk, ?_⟩
      have hwfu : wfUnchecked
          ⟨some (Address.Id p.1, payloadSig key function p.2 add, p.2), function⟩ := by
        refine ⟨?_, hf⟩
        rintro t ht
        injection ht with ht
        subst ht
        exact ⟨hp1, wfSignature_payloadSig hk function p.2 add, hp2⟩
      have hdec := decodeUnchecked_enc hwfu []
      rwa [List.append_nil] at hdec

/-- C3 witness: instantiated on a concrete signed `withdraw_unbonded`
extrinsic. -/
theorem spec_c3_witness :
    ∃ u, sign ⟨some (7, build_extra 0 1), .Staking .withdraw_unbonded⟩ ⟨5⟩
        ⟨1, 11, 12, (), (), (), ()⟩ = .ok u ∧
      decodeUnchecked (encodeUnchecked u) = some (u, []) :=
  spec_c3 ⟨some (7, build_extra 0 1), .Staking .withdraw_unbonded⟩ ⟨5⟩
    ⟨1, 11, 12, (), (), (), ()⟩
    ⟨fun p hp => by
      injection hp with hp
      subst hp
      exact ⟨by norm_num, wfExtra_build_extra (by norm_num) 1⟩, wfCall_withdraw⟩
    (by norm_num)

/-- C4 counterexample: two invocations of `create_extrinsic` from equal
states with equal arguments in step `authorship_set_uncles`, differing
only in the OS randomness consumed by `H256::random()`, build different
call payloads — the builder output is not a function of the state and
arguments alone. -/
theorem spec_c4_counterexample :
    callOf (create_extrinsic ⟨"authorship_set_uncles", 5, 0, 0, 0, 0, 0⟩
        7 ⟨5⟩ 9 100 1 999 12 []) ≠
      callOf (create_extrinsic ⟨"authorship_set_uncles", 5, 0, 0, 0, 0, 0⟩
        7 ⟨5⟩ 9 100 1 999 12 [1]) := by
  have hc1 := create_eq_of_build
    (buildFunction_set_uncles
      (show (⟨"authorship_set_uncles", 5, 0, 0, 0, 0, 0⟩ : FactoryState).tx_name =
        "authorship_set_uncles" from rfl) 9 100 999 [])
    1 12 (show (7:Nat) < 2 ^ 256 by norm_num)
    (show (⟨5⟩ : Pair).secret < 2 ^ 256 by norm_num) (by norm_num)
    (wfCall_set_uncles (by norm_num) (by norm_num) [])
  have hc2 := create_eq_of_build
    (buildFunction_set_uncles
      (show (⟨"authorship_set_uncles", 5, 0, 0, 0, 0, 0⟩ : FactoryState).tx_name =
        "authorship_set_uncles" from rfl) 9 100 999 [1])
    1 12 (show (7:Nat) < 2 ^ 256 by norm_num)
    (show (⟨5⟩ : Pair).secret < 2 ^ 256 by norm_num) (by norm_num)
    (wfCall_set_uncles (by norm_num) (by norm_num) [1])
  rw [hc1, hc2]
  decide

/-- C4 (amended): the builder is deterministic in the state and
arguments for every step other than `authorship_set_uncles` (whose
placeholder header hashes are fresh OS randomness, not reproducible),
and the resulting next step is deterministic for every step including
`authorship_set_uncles`. -/
theorem spec_c4 (st : FactoryState) (sender : Nat) (key : Pair)
    (destination amount version genesis_hash prior_block_hash : Nat)
    (e1 e2 : List Nat)
    (hs : sender < 2 ^ 256) (hk : key.secret < 2 ^ 256)
    (hi : st.index < 2 ^ 32) (hbn : st.block_no < 2 ^ 32)
    (hg : genesis_hash < 2 ^ 256) :
    (st.tx_name ≠ "authorship_set_uncles" →
      callOf (create_extrinsic st sender key destination amount version
          genesis_hash prior_block_hash e1) =
        callOf (create_extrinsic st sender key destination amount version
          genesis_hash prior_block_hash e2)) ∧
    stepNameOf (create_extrinsic st sender key destination amount version
        genesis_hash prior_block_hash e1) =
      stepNameOf (create_extrinsic st sender key destination amount version
        genesis_hash prior_block_hash e2) := by
  constructor
  · intro hne
    exact create_callOf_eq
      (buildFunction_entropy_free hne destination amount genesis_hash e1 e2)
  · by_cases h4 : st.tx_name = "authorship_set_uncles"
    · rw [create_eq_of_build
          (buildFunction_set_uncles h4 destination amount genesis_hash e1)
          version prior_block_hash hs hk hi (wfCall_set_uncles hbn hg e1),
        create_eq_of_build
          (buildFunction_set_uncles h4 destination amount genesis_hash e2)
          version prior_block_hash hs hk hi (wfCall_set_uncles hbn hg e2)]
      rw [stepNameOf_ok, stepNameOf_ok]
    · exact create_stepNameOf_eq
        (buildFunction_entropy_free h4 destination amount genesis_hash e1 e2)

/-- C4 witness: a concrete `staking_bond` call builds the same payload
and next step under two different entropy streams. -/
theorem spec_c4_witness :
    callOf (create_extrinsic ⟨"staking_bond", 1, 2, 3, 4, 6, 0⟩
        7 ⟨5⟩ 9 100 1 11 12 []) =
      callOf (create_extrinsic ⟨"staking_bond", 1, 2, 3, 4, 6, 0⟩
        7 ⟨5⟩ 9 100 1 11 12 [1]) ∧
    stepNameOf (create_extrinsic ⟨"staking_bond", 1, 2, 3, 4, 6, 0⟩
        7 ⟨5⟩ 9 100 1 11 12 []) =
      stepNameOf (create_extrinsic ⟨"staking_bond", 1, 2, 3, 4, 6, 0⟩
        7 ⟨5⟩ 9 100 1 11 12 [1]) := by
  have h := spec_c4 ⟨"staking_bond", 1, 2, 3, 4, 6, 0⟩ 7 ⟨5⟩ 9 100 1 11 12 [] [1]
    (by norm_num) (by norm_num) (by norm_num) (by norm_num) (by norm_num)
  exact ⟨h.1 (by decide), h.2⟩

/-- C5 counterexample: in step `authorship_set_uncles` no header's
parent hash is one of the pseudo-random values drawn from the entropy
source during the call — the parent hash is the genesis hash, so the
claim that the parent hash is itself a drawn pseudo-random value fails
at this concrete input. -/
theorem spec_c5_counterexample :
    ¬ (∀ hd ∈ unclesOf (create_extrinsic ⟨"authorship_set_uncles", 5, 0, 0, 0, 0, 0⟩
          7 ⟨5⟩ 9 100 1 999 12 ((List.range 20).map (fun i => i + 1))),
        hd.parent_hash ∈
          (List.range 20).map (entropyAt ((List.range 20).map (fun i => i + 1)))) := by
  have hc := create_eq_of_build
    (buildFunction_set_uncles
      (show (⟨"authorship_set_uncles", 5, 0, 0, 0, 0, 0⟩ : FactoryState).tx_name =
        "authorship_set_uncles" from rfl) 9 100 999
      ((List.range 20).map (fun i => i + 1)))
    1 12 (show (7:Nat) < 2 ^ 256 by norm_num)
    (show (⟨5⟩ : Pair).secret < 2 ^ 256 by norm_num) (by norm_num)
    (wfCall_set_uncles (by norm_num) (by norm_num) ((List.range 20).map (fun i => i + 1)))
  rw [hc]
  decide

/-- C5 (amended): in step `authorship_set_uncles` the built call contains
exactly 10 synthetic headers; every header's number is
`max(1, block_no)`, its extrinsics root and state root are the
pseudo-random 256-bit values drawn from the entropy source (two fresh
draws per header), and its parent hash — the parent-link field — is the
supplied genesis hash for every header. -/
theorem spec_c5 (st : FactoryState) (sender : Nat) (key : Pair)
    (destination amount version genesis_hash prior_block_hash : Nat)
    (entropy : List Nat)
    (hn : st.tx_name = "authorship_set_uncles")
    (hs : sender < 2 ^ 256) (hk : key.secret < 2 ^ 256)
    (hi : st.index < 2 ^ 32) (hbn : st.block_no < 2 ^ 32)
    (hg : genesis_hash < 2 ^ 256) :
    ∃ u e2, create_extrinsic st sender key destination amount version genesis_hash
        prior_block_hash entropy = .ok (u, st, e2) ∧
      ∃ uncles, u.function = .Authorship (.set_uncles uncles) ∧
        uncles.length = 10 ∧
        (∀ hd ∈ uncles, hd.number = max 1 st.block_no ∧
          hd.parent_hash = genesis_hash) ∧
        (∀ i, i < 10 →
          (uncles.getD i headerDefault).extrinsics_root = entropyAt entropy (2 * i) ∧
          (uncles.getD i headerDefault).state_root = entropyAt entropy (2 * i + 1)) := by
  refine ⟨_, _, create_eq_of_build
    (buildFunction_set_uncles hn destination amount genesis_hash entropy)
    version prior_block_hash hs hk hi (wfCall_set_uncles hbn hg entropy), ?_⟩
  refine ⟨(makeUncles st.block_no genesis_hash 10 entropy).1, rfl,
    makeUncles_length st.block_no genesis_hash 10 entropy, ?_, ?_⟩
  · intro hd hmem
    obtain ⟨h1, h2, -, -, -⟩ :=
      makeUncles_mem st.block_no genesis_hash 10 entropy hd hmem
    exact ⟨h1, h2⟩
  · intro i hi10
    rw [makeUncles_getD st.block_no genesis_hash 10 entropy i hi10]
    exact ⟨rfl, rfl⟩

/-- C5 witness: instantiated on a concrete `authorship_set_uncles`
call. -/
theorem spec_c5_witness :
    ∃ u e2, create_extrinsic ⟨"authorship_set_uncles", 5, 0, 0, 0, 0, 0⟩
        7 ⟨5⟩ 9 100 1 999 12 [] =
      .ok (u, ⟨"authorship_set_uncles", 5, 0, 0, 0, 0, 0⟩, e2) ∧
      ∃ uncles, u.function = .Authorship (.set_uncles uncles) ∧
        uncles.length = 10 ∧
        (∀ hd ∈ uncles, hd.number =
            max 1 (⟨"authorship_set_uncles", 5, 0, 0, 0, 0, 0⟩ : FactoryState).block_no ∧
          hd.parent_hash = 999) ∧
        (∀ i, i < 10 →
          (uncles.getD i headerDefault).extrinsics_root = entropyAt [] (2 * i) ∧
          (uncles.getD i headerDefault).state_root = entropyAt [] (2 * i + 1)) :=
  spec_c5 ⟨"authorship_set_uncles", 5, 0, 0, 0, 0, 0⟩ 7 ⟨5⟩ 9 100 1 999 12 [] rfl
    (by norm_num) (by norm_num) (by norm_num) (by norm_num) (by norm_num)

end Factory
